import Mathlib

/-! Horizon ingestion: database state evaluation and capability-gated processors.

A shallow embedding of

* `internal/ingest/db_state.go` (`dbState`, `dbStateInput`, `evaluateDBState`, `checkDBState`),
* `internal/ingest/processors/operations_processor_xdr_hello_world_on.go`,
* `internal/ingest/processors/stats_ledger_transaction_processor_xdr_hello_world_on.go`,
* `internal/ingest/processors/transactions_processor_xdr_transaction_meta_v5_on.go`,
* `internal/ingest/contractevents/events_xdr_transaction_meta_v5_on.go`,
* `internal/integration/generate_ledgers_test.go` (`streamLedgersToFile`,
  `openCheckpointReader`, `verifyFixturesCompleteness`),
* `internal/scripts/build_release_artifacts/main.go` (`getGitHubTagName`, `build`,
  `buildByTag`, `buildSnapshots`, `getBuildConfigs`, `repoName`, `prepareDest`, `main`).

Conventions of the embedding:

* Go `uint32` values are natural numbers and Go `int` values are integers. The
  embedded functions only compare them, so no wrap-around is involved, and every
  theorem below quantifies over all naturals/integers, which covers the machine
  ranges.
* A Go `error` result is `Option Error`, where `none` is `nil`.
* A Go pointer, map or slice that may be `nil` is an `Option`, where `none` is `nil`
  (so `some []` is an empty, non-nil slice or map).
* A Go multi-value return is a tuple in the same order.
* A Go `int64` that is incremented wraps around (`wrapInt64`).
* A function that mutates its pointer argument returns the updated value.
* Calls into the operating system and the SDK are inputs of the embedded function: the
  values and errors they return are fields of a record (`StreamFiles`, `VerifyWorld`,
  `Surroundings`), and a failed `require` ends the test (`none` or `false`).
-/

/-! ## Library types used by the embedded files -/

/-- A Go `error` value: a base error carrying its message, or an error wrapped with an
added message (what `errors.Wrap` of `support/errors` builds). -/
inductive Error where
  | base (msg : String)
  | wrap (cause : Error) (msg : String)
  deriving DecidableEq, Repr

/-- Go `errors.Wrap(err, message)`: `nil` for a `nil` error, otherwise the error wrapped
with the message. -/
def errors.Wrap (err : Option Error) (message : String) : Option Error :=
  match err with
  | none => none
  | some e => some (Error.wrap e message)

namespace xdr

/-- The content of an XDR value that the embedded functions never inspect, carried as
its encoded bytes. -/
abbrev Payload := List Nat

/-- Go `xdr.OperationType` (`int32`): the discriminant of an operation body. -/
abbrev OperationType := Int

/-- Go `xdr.AccountId`. -/
structure AccountId where
  bytes : Payload
  deriving DecidableEq, Repr

/-- Go `xdr.TransactionMetaV5`. Slices are `Option (List _)` to tell `nil` from empty;
`SorobanMeta` is a pointer; `Ext` is an `ExtensionPoint` (its `V`). -/
structure TransactionMetaV5 where
  Ext : Int
  TxChangesBefore : Option (List Payload)
  Operations : Option (List Payload)
  TxChangesAfter : Option (List Payload)
  SorobanMeta : Option Payload
  Events : Option (List Payload)
  DiagnosticEvents : Option (List Payload)
  deriving DecidableEq, Repr

/-- Go `xdr.TransactionMeta`: the union discriminant `V` (`int32`) and one pointer per
arm. -/
structure TransactionMeta where
  V : Int
  Operations : Option (List Payload)
  V1 : Option Payload
  V2 : Option Payload
  V3 : Option Payload
  V4 : Option Payload
  V5 : Option TransactionMetaV5
  deriving DecidableEq, Repr

end xdr

/-- Go `ingest.LedgerTransaction` of the SDK, of which the embedded code reads
`UnsafeMeta` only. -/
structure LedgerTransaction where
  Index : Nat
  UnsafeMeta : xdr.TransactionMeta
  deriving DecidableEq, Repr

namespace ingest

/-! ## `db_state.go` -/

/-- Go `type dbState int`. -/
structure dbState where
  val : Int
  deriving DecidableEq, Repr

/-- Go `dbStateEmpty dbState = iota` (0): lastIngestedLedger == 0. -/
def dbStateEmpty : dbState := ⟨0⟩

/-- Go `dbStateValid` (1): ready for resume. -/
def dbStateValid : dbState := ⟨1⟩

/-- Go `dbStateNeedsRebuild` (2): version mismatch. -/
def dbStateNeedsRebuild : dbState := ⟨2⟩

/-- Go `dbStateInconsistent` (3): history/ingest ledger mismatch. -/
def dbStateInconsistent : dbState := ⟨3⟩

/-- Go `func (s dbState) String() string`: a `switch` over the four constants with
a `default` arm. -/
def dbState.String (s : dbState) : String :=
  if s = dbStateEmpty then "empty"
  else if s = dbStateValid then "valid"
  else if s = dbStateNeedsRebuild then "needs_rebuild"
  else if s = dbStateInconsistent then "inconsistent"
  else "unknown"

/-- Go `type dbStateInput struct`: the values needed to evaluate the DB state.
`LastIngestedLedger`, `LastHistoryLedger` are `uint32`; `IngestVersion`,
`CurrentVersion` are `int`. -/
structure dbStateInput where
  LastIngestedLedger : Nat
  IngestVersion : Int
  LastHistoryLedger : Nat
  CurrentVersion : Int
  deriving DecidableEq, Repr

/-- Go `func evaluateDBState(input dbStateInput) dbState`: three guarded early
returns followed by the final `return dbStateValid`. -/
def evaluateDBState (input : dbStateInput) : dbState :=
  if input.LastIngestedLedger = 0 then
    dbStateEmpty
  else if input.IngestVersion ≠ input.CurrentVersion then
    dbStateNeedsRebuild
  else if input.LastHistoryLedger ≠ 0 ∧ input.LastHistoryLedger ≠ input.LastIngestedLedger then
    dbStateInconsistent
  else
    dbStateValid

/-- Modelled from the spec: the interface `history.IngestionQ`, declared in
`internal/db2/history` outside the embedded files, reduced to the three read queries
that `checkDBState` calls (the query capability `GetLastLedgerIngestNonBlocking`,
`GetIngestVersion`, `GetLatestHistoryLedger` of the specification). An implementation
is a parameter of `checkDBState`: each query receives the context `ctx : κ` and the
current state `σ` of the store (or of a test double) and yields its Go result pair
`(value, err)` with the state after the call. -/
structure IngestionQ (κ σ : Type) where
  GetLastLedgerIngestNonBlocking : κ → σ → (Nat × Option Error) × σ
  GetIngestVersion : κ → σ → (Int × Option Error) × σ
  GetLatestHistoryLedger : κ → σ → (Nat × Option Error) × σ

/-- Go `func checkDBState(ctx, historyQ, currentVersion) (dbState, uint32, error)`:
three queries in sequence, each followed by `if err != nil { return 0, 0, Wrap(...) }`,
then `evaluateDBState` on the fetched values. The store state is threaded through the
calls. -/
def checkDBState {κ σ : Type} (ctx : κ) (historyQ : IngestionQ κ σ) (currentVersion : Int)
    (s : σ) : (dbState × Nat × Option Error) × σ :=
  match historyQ.GetLastLedgerIngestNonBlocking ctx s with
  | ((lastIngestedLedger, err), s1) =>
    if err.isSome then
      ((⟨0⟩, 0, errors.Wrap err "error getting last ingested ledger"), s1)
    else
      match historyQ.GetIngestVersion ctx s1 with
      | ((ingestVersion, err), s2) =>
        if err.isSome then
          ((⟨0⟩, 0, errors.Wrap err "error getting ingest version"), s2)
        else
          match historyQ.GetLatestHistoryLedger ctx s2 with
          | ((lastHistoryLedger, err), s3) =>
            if err.isSome then
              ((⟨0⟩, 0, errors.Wrap err "error getting last history ledger"), s3)
            else
              let state := evaluateDBState
                { LastIngestedLedger := lastIngestedLedger,
                  IngestVersion := ingestVersion,
                  LastHistoryLedger := lastHistoryLedger,
                  CurrentVersion := currentVersion }
              ((state, lastIngestedLedger, none), s3)

/-- A test double for `IngestionQ`: each query returns a fixed Go result pair and
appends its own name to the log of calls that serves as the store state. -/
def stubIngestionQ (l : Nat × Option Error) (v : Int × Option Error)
    (h : Nat × Option Error) : IngestionQ Unit (List String) where
  GetLastLedgerIngestNonBlocking := fun _ log => (l, log ++ ["GetLastLedgerIngestNonBlocking"])
  GetIngestVersion := fun _ log => (v, log ++ ["GetIngestVersion"])
  GetLatestHistoryLedger := fun _ log => (h, log ++ ["GetLatestHistoryLedger"])

/-! ### The rule of the specification, written from its words -/

/-- The four ingestion states named by the specification. -/
inductive IngestionState where
  | Empty
  | Valid
  | NeedsRebuild
  | Inconsistent
  deriving DecidableEq, Repr

/-- The code constant standing for each state of the specification. -/
def IngestionState.toDBState : IngestionState → dbState
  | .Empty => dbStateEmpty
  | .Valid => dbStateValid
  | .NeedsRebuild => dbStateNeedsRebuild
  | .Inconsistent => dbStateInconsistent

/-- One numbered rule of the specification: a condition on the input and the state it
reports. -/
structure SpecRule where
  applies : dbStateInput → Bool
  state : IngestionState

/-- Rules 1 to 3 of the specification, in the order written there. -/
def specRules : List SpecRule :=
  [ ⟨fun i => decide (i.LastIngestedLedger = 0), .Empty⟩,
    ⟨fun i => decide (i.IngestVersion ≠ i.CurrentVersion), .NeedsRebuild⟩,
    ⟨fun i => decide (i.LastHistoryLedger ≠ 0) && decide (i.LastHistoryLedger ≠ i.LastIngestedLedger),
      .Inconsistent⟩ ]

/-- The specification rule ("checked in this exact order, first match wins"): the
state of the first rule whose condition holds, and rule 4 ("otherwise Valid") when
none does. -/
def evaluateDBState_spec (input : dbStateInput) : IngestionState :=
  match specRules.find? (fun r => r.applies input) with
  | some r => r.state
  | none => .Valid

end ingest

namespace processors

/-! ## `operations_processor_xdr_hello_world_on.go` -/

/-- Modelled from the spec: the type `transactionOperationWrapper` of the processors
package, declared outside the embedded files. The specification says that operations
carry a discriminant type tag used for processor dispatch, and the embedded functions
only read that tag, so the wrapper is its operation index with the tag and the
remaining body content. -/
structure transactionOperationWrapper where
  index : Nat
  bodyType : xdr.OperationType
  body : xdr.Payload
  deriving DecidableEq, Repr

/-- Modelled from the spec: the method `OperationType()` of the wrapper, declared
outside the embedded files; it returns the discriminant type tag of the operation. -/
def transactionOperationWrapper.OperationType (operation : transactionOperationWrapper) :
    xdr.OperationType :=
  operation.bodyType

/-- Go `func detailsForXdrHelloWorld(operation) (map[string]interface{}, error, bool)`.
The constant `xdr.OperationTypeHelloWorld` exists only under the `xdr_hello_world`
build tag of the SDK and is taken as a parameter; `ι` is the type of the map values
(`interface{}`). -/
def detailsForXdrHelloWorld (ι : Type) (OperationTypeHelloWorld : xdr.OperationType)
    (operation : transactionOperationWrapper) :
    Option (List (String × ι)) × Option Error × Bool :=
  if operation.OperationType = OperationTypeHelloWorld then
    (some [], none, true)
  else
    (none, none, false)

/-- Go `func participantsForXdrHelloWorld(operation) ([]xdr.AccountId, error, bool)`:
on a match the only direct participant is the source account, already added, so the
slice is `nil`. -/
def participantsForXdrHelloWorld (OperationTypeHelloWorld : xdr.OperationType)
    (operation : transactionOperationWrapper) :
    Option (List xdr.AccountId) × Option Error × Bool :=
  if operation.OperationType = OperationTypeHelloWorld then
    (none, none, true)
  else
    (none, none, false)

end processors

namespace contractevents

/-! ## `events_xdr_transaction_meta_v5_on.go` -/

/-- Go `func parseSacEventFromTxMetaForXdrTransactionMetaV5(tx, event, networkPassphrase)
(*StellarAssetContractEvent, error, bool)`. The V4 parser `parseSacEventFromTxMetaV4`
is declared outside the embedded files and is taken as a parameter, with `ε` the
contract event type and `ρ` the parsed asset-contract event type. -/
def parseSacEventFromTxMetaForXdrTransactionMetaV5 {ε ρ : Type}
    (parseSacEventFromTxMetaV4 : Option ε → String → Option ρ × Option Error)
    (tx : LedgerTransaction) (event : Option ε) (networkPassphrase : String) :
    Option ρ × Option Error × Bool :=
  if tx.UnsafeMeta.V = 5 then
    match parseSacEventFromTxMetaV4 event networkPassphrase with
    | (result, err) => (result, err, true)
  else
    (none, none, false)

/-- A test double for the V4 parser: a `nil` event is a parse failure, any other event
parses to its own content tagged with the network passphrase. -/
def stubParseSacEventFromTxMetaV4 (event : Option xdr.Payload) (networkPassphrase : String) :
    Option (String × xdr.Payload) × Option Error :=
  match event with
  | none => (none, some (Error.base "contract event is nil"))
  | some e => (some (networkPassphrase, e), none)

/-- A ledger transaction whose meta has version `v` and no arm set. -/
def txWithMetaVersion (v : Int) : LedgerTransaction :=
  { Index := 1,
    UnsafeMeta :=
      { V := v, Operations := none, V1 := none, V2 := none, V3 := none, V4 := none,
        V5 := none } }

end contractevents

namespace xdr

/-- Go `xdr.OperationBody`: the union discriminant `Type` and the content of its arm. -/
structure OperationBody where
  Type_ : OperationType
  arm : Payload
  deriving DecidableEq, Repr

end xdr

/-- The value of a Go `int64` after an arithmetic step: the integer reduced to the
range from -2^63 to 2^63 - 1 (two's complement wrap-around). -/
def wrapInt64 (x : Int) : Int :=
  (x + 9223372036854775808) % 18446744073709551616 - 9223372036854775808

/-- The integers that a Go `int64` can hold. -/
def inInt64 (x : Int) : Prop :=
  -9223372036854775808 ≤ x ∧ x < 9223372036854775808

instance (x : Int) : Decidable (inInt64 x) := by
  unfold inInt64
  exact inferInstance

namespace processors

/-! ## `stats_ledger_transaction_processor_xdr_hello_world_on.go` -/

/-- Modelled from the spec: the per-ledger accumulator
`StatsLedgerTransactionProcessorResults` of the processors package, declared outside
the embedded files. The specification says that it tallies per-kind operation counts;
the embedded function names its `OperationsHelloWorld` counter (`int64`), and the
remaining counters are kept by name. -/
structure StatsLedgerTransactionProcessorResults where
  OperationsHelloWorld : Int
  otherCounters : List (String × Int)
  deriving DecidableEq, Repr

/-- Go `func countOperationTypeForXdrHelloWorld(results, opBody) bool`. The pointer
argument `results` is returned updated; `OperationsHelloWorld++` is an `int64`
increment. The constant `xdr.OperationTypeHelloWorld` is a parameter. -/
def countOperationTypeForXdrHelloWorld (OperationTypeHelloWorld : xdr.OperationType)
    (results : StatsLedgerTransactionProcessorResults) (opBody : xdr.OperationBody) :
    StatsLedgerTransactionProcessorResults × Bool :=
  if opBody.Type_ = OperationTypeHelloWorld then
    ({ results with OperationsHelloWorld := wrapInt64 (results.OperationsHelloWorld + 1) },
      true)
  else
    (results, false)

/-- The function `countOperationTypeForXdrHelloWorld` applied to each body of a list in
turn, on the same accumulator: the final accumulator and the list of returned
booleans. -/
def countOperationTypesForXdrHelloWorld (OperationTypeHelloWorld : xdr.OperationType)
    (results : StatsLedgerTransactionProcessorResults) :
    List xdr.OperationBody → StatsLedgerTransactionProcessorResults × List Bool
  | [] => (results, [])
  | opBody :: rest =>
    match countOperationTypeForXdrHelloWorld OperationTypeHelloWorld results opBody with
    | (results1, counted) =>
      match countOperationTypesForXdrHelloWorld OperationTypeHelloWorld results1 rest with
      | (final, flags) => (final, counted :: flags)

/-- The number of bodies of a list whose type is `OperationTypeHelloWorld`. -/
def helloWorldBodies (OperationTypeHelloWorld : xdr.OperationType)
    (bodies : List xdr.OperationBody) : Nat :=
  bodies.countP (fun b => decide (b.Type_ = OperationTypeHelloWorld))

/-! ## `transactions_processor_xdr_transaction_meta_v5_on.go` -/

/-- Go `func elideTransactionMetaForXdrTransactionMetaV5(meta *xdr.TransactionMeta) bool`.
The pointer argument `meta` is returned updated. -/
def elideTransactionMetaForXdrTransactionMetaV5 (meta : xdr.TransactionMeta) :
    xdr.TransactionMeta × Bool :=
  if meta.V = 5 then
    ({ meta with
        V5 := some
          { Ext := 0,
            TxChangesBefore := some [],
            Operations := some [],
            TxChangesAfter := some [],
            SorobanMeta := none,
            Events := some [],
            DiagnosticEvents := some [] } },
      true)
  else
    (meta, false)

end processors

namespace build_release_artifacts

/-! ## `scripts/build_release_artifacts/main.go` -/

/-- A Go `string`: its sequence of bytes. Indexing and slicing a Go string count
bytes. -/
abbrev GoString := List Nat

/-- The bytes of an ASCII string literal of the source. -/
def ascii (s : String) : GoString :=
  s.toList.map Char.toNat

/-- Go `type buildConfig struct`. -/
structure buildConfig where
  OS : GoString
  Arch : GoString
  deriving DecidableEq, Repr

/-- Go `var builds`. -/
def builds : List buildConfig :=
  [ ⟨ascii "darwin", ascii "amd64"⟩,
    ⟨ascii "linux", ascii "amd64"⟩,
    ⟨ascii "linux", ascii "arm"⟩,
    ⟨ascii "windows", ascii "amd64"⟩ ]

/-- What the script reads from its surroundings: the environment variables
`GITHUB_REF` and `REPO`, the process environment `os.Environ()`, the flags `-os` and
`-arch`, the trimmed outputs of `git rev-parse HEAD` and of
`git describe --always --dirty`, and the library function `filepath.Join`. -/
structure Surroundings where
  GITHUB_REF : GoString
  REPO : GoString
  environ : List GoString
  osFilter : GoString
  archFilter : GoString
  gitRevParseHead : GoString
  gitDescribe : GoString
  Join : GoString → GoString → GoString

/-- The command that `build` hands to `exec.Command`, with its environment. -/
structure ExecCmd where
  Args : List GoString
  Env : List GoString
  deriving DecidableEq, Repr

/-- Go `func getGitHubTagName() string`, as a function of the value of `GITHUB_REF`. -/
def getGitHubTagName (w : Surroundings) : GoString :=
  let githubTagRefPrefix := ascii "refs/tags/"
  let ref := w.GITHUB_REF
  if ref = [] then
    []
  else if ¬ githubTagRefPrefix.isPrefixOf ref then
    []
  else
    ref.drop githubTagRefPrefix.length

/-- Go `func build(pkg, dest, version, buildOS, buildArch string)`, up to the command it
runs. The result is `none` when `version[1:]` panics (an empty `version`: slice bounds
out of range); otherwise the command with the version flag in `GOFLAGS`. -/
def build (w : Surroundings) (pkg dest version buildOS buildArch : GoString) :
    Option ExecCmd :=
  let rev := w.gitRevParseHead
  match version with
  | [] => none
  | _ :: versionString =>
    let versionFlag :=
      ascii "-X=github.com/stellar/go-stellar-sdk/support/app.version=" ++
        versionString ++ ascii "-" ++ rev
    let dest := if buildOS = ascii "windows" then dest ++ ascii ".exe" else dest
    some
      { Args := [ascii "go", ascii "build", ascii "-trimpath", ascii "-o", dest, pkg],
        Env := w.environ ++
          [ ascii "CGO_ENABLED=0",
            ascii "GOFLAGS=-ldflags=" ++ versionFlag,
            ascii "GOOS=" ++ buildOS,
            ascii "GOARCH=" ++ buildArch ] }

/-- Go `func getBuildConfigs() (result []buildConfig)`. -/
def getBuildConfigs (w : Surroundings) : List buildConfig :=
  builds.filter (fun cfg =>
    !(decide (w.osFilter ≠ []) && decide (w.osFilter ≠ cfg.OS)) &&
    !(decide (w.archFilter ≠ []) && decide (w.archFilter ≠ cfg.Arch)))

/-- Go `func repoName() string`. -/
def repoName (w : Surroundings) : GoString :=
  if w.REPO ≠ [] then w.REPO else ascii "github.com/stellar/stellar-horizon"

/-- Go `func prepareDest(pkg, bin, version, os, arch string) string`, as to the path it
returns (the directory it creates and the files it copies there are left out). -/
def prepareDest (w : Surroundings) (bin version os arch : GoString) : GoString :=
  let name := bin ++ ascii "-" ++ version ++ ascii "-" ++ os ++ ascii "-" ++ arch
  w.Join (ascii "dist") name

/-- Go `func buildByTag(tag string)`: the calls of `build`, one per build
configuration, with the versions they receive. -/
def buildByTag (w : Surroundings) (tag : GoString) : List (GoString × Option ExecCmd) :=
  let repo := repoName w
  (getBuildConfigs w).map (fun cfg =>
    let dest := prepareDest w (ascii "horizon") tag cfg.OS cfg.Arch
    (tag, build w (repo ++ ascii "/.") (w.Join dest (ascii "horizon")) tag cfg.OS cfg.Arch))

/-- Go `func buildSnapshots()`: the calls of `build`, one per build configuration, with
the versions they receive. -/
def buildSnapshots (w : Surroundings) : List (GoString × Option ExecCmd) :=
  let rev := w.gitDescribe
  let version := ascii "snapshot-" ++ rev
  let repo := repoName w
  (getBuildConfigs w).map (fun cfg =>
    let dest := prepareDest w (ascii "horizon") (ascii "snapshot") cfg.OS cfg.Arch
    (version,
      build w (repo ++ ascii "/.") (w.Join dest (ascii "horizon")) version cfg.OS cfg.Arch))

/-- Go `func main()`, as to the builds it starts: by tag when `getGitHubTagName` is not
empty, snapshots otherwise. -/
def main (w : Surroundings) : List (GoString × Option ExecCmd) :=
  let ghTag := getGitHubTagName w
  if ghTag ≠ [] then buildByTag w ghTag else buildSnapshots w

/-- Surroundings of a local run outside a GitHub action: no `GITHUB_REF`, no `REPO`,
the build restricted to linux on arm, revision `deadbeef`, description `abc1234`, and
joining paths with a slash. -/
def localRun : Surroundings :=
  { GITHUB_REF := [],
    REPO := [],
    environ := [],
    osFilter := ascii "linux",
    archFilter := ascii "arm",
    gitRevParseHead := ascii "deadbeef",
    gitDescribe := ascii "abc1234",
    Join := fun a b => a ++ ascii "/" ++ b }

end build_release_artifacts

namespace xdr

/-- Go `xdr.LedgerCloseMeta` of the SDK, with the results of its methods
`LedgerSequence()` and `ProtocolVersion()` (both `uint32`) and the rest of its
content. -/
structure LedgerCloseMeta where
  LedgerSequence : Nat
  ProtocolVersion : Nat
  content : Payload
  deriving DecidableEq, Repr

end xdr

/-- What a sequence of reads from a stream or reader yields: the values of the reads
that succeeded, then either `io.EOF` (`err = none`) or another error (`err = some e`). -/
structure ReadRun (α : Type) where
  items : List α
  err : Option Error

/-- Go `ingest.Change` of the SDK: the entry before (`Pre`) and after (`Post`), each a
pointer; `ε` is the ledger entry type. -/
structure Change (ε : Type) where
  Pre : Option ε
  Post : Option ε
  deriving DecidableEq, Repr

namespace integration

/-! ## `integration/generate_ledgers_test.go`: `streamLedgersToFile` -/

/-- What `streamLedgersToFile` meets outside itself: the errors of `os.Open`,
`os.Create` and `zstd.NewWriter`, the ledgers that `stream.ReadOne` yields, and the
error of `xdr.MarshalFramed` for a ledger given the ledgers written so far. -/
structure StreamFiles where
  openErr : Option Error
  createErr : Option Error
  newWriterErr : Option Error
  metadata : ReadRun xdr.LedgerCloseMeta
  marshalErr : List xdr.LedgerCloseMeta → xdr.LedgerCloseMeta → Option Error

/-- The outcome of `streamLedgersToFile`: the returned count (`none` when a `require`
failed and stopped the test), the counters `count` and `skipped` when the loop stopped,
and the ledgers written to the output, in order. -/
structure StreamOutcome where
  returned : Option Nat
  count : Nat
  skipped : Nat
  written : List xdr.LedgerCloseMeta
  deriving DecidableEq, Repr

/-- The `for` loop of `streamLedgersToFile` over the ledgers read, followed by the read
that ends the stream. The counters of the source are Go `int`s starting at 0 and
incremented once per ledger, hence far from wrapping. -/
def streamLoop (files : StreamFiles) (preBenchmarkCheckpoint : Nat) :
    List xdr.LedgerCloseMeta → StreamOutcome → StreamOutcome
  | [], acc =>
    if files.metadata.err.isSome then
      { acc with returned := none }
    else
      { acc with returned := some acc.count }
  | ledger :: rest, acc =>
    if ledger.LedgerSequence ≤ preBenchmarkCheckpoint then
      streamLoop files preBenchmarkCheckpoint rest { acc with skipped := acc.skipped + 1 }
    else if (files.marshalErr acc.written ledger).isSome then
      { acc with returned := none }
    else
      streamLoop files preBenchmarkCheckpoint rest
        { acc with written := acc.written ++ [ledger], count := acc.count + 1 }

/-- Go `func streamLedgersToFile(t, metadataPath, outputPath, preBenchmarkCheckpoint) int`. -/
def streamLedgersToFile (files : StreamFiles) (preBenchmarkCheckpoint : Nat) :
    StreamOutcome :=
  if files.openErr.isSome then
    ⟨none, 0, 0, []⟩
  else if files.createErr.isSome then
    ⟨none, 0, 0, []⟩
  else if files.newWriterErr.isSome then
    ⟨none, 0, 0, []⟩
  else
    streamLoop files preBenchmarkCheckpoint files.metadata.items ⟨none, 0, 0, []⟩

/-- Files without any failure, holding the given ledgers. -/
def healthyFiles (ledgers : List xdr.LedgerCloseMeta) : StreamFiles :=
  { openErr := none,
    createErr := none,
    newWriterErr := none,
    metadata := ⟨ledgers, none⟩,
    marshalErr := fun _ _ => none }

end integration

namespace integration

/-! ## `integration/generate_ledgers_test.go`: `verifyFixturesCompleteness` -/

/-- The Go `map[string]bool` named `knownKeys`, which the source only reads by lookup:
the value found for each key, `false` for an absent key. Setting a key to `true` and
deleting a key are updates of that function. -/
abbrev KnownKeys := String → Bool

/-- An `ingest.ChangeReader` as the test uses it: what its `Read` calls yield, and the
error of its `Close`. -/
structure ChangeReaderRun (ε : Type) where
  reads : ReadRun (Change ε)
  closeErr : Option Error

/-- What `verifyFixturesCompleteness` meets outside itself, for ledger entries of type
`ε` and ledger keys of type `κ`: the SDK methods `LedgerKey()` and
`MarshalBinaryBase64()`, the errors of `historyarchive.Connect` and
`ingest.NewCheckpointChangeReader`, the checkpoint reader, the error of `os.Open`, the
ledgers that `stream.ReadOne` yields, the constant
`horizoningest.MaxSupportedProtocolVersion`, and the SDK function
`ingest.NewLedgerChangeReaderFromLedgerCloseMeta`. -/
structure VerifyWorld (ε κ : Type) where
  LedgerKey : ε → κ × Option Error
  MarshalBinaryBase64 : κ → String × Option Error
  connectErr : Option Error
  newCheckpointChangeReaderErr : Option Error
  checkpointReader : ChangeReaderRun ε
  openErr : Option Error
  metadata : ReadRun xdr.LedgerCloseMeta
  MaxSupportedProtocolVersion : Nat
  NewLedgerChangeReaderFromLedgerCloseMeta :
    String → xdr.LedgerCloseMeta → ChangeReaderRun ε × Option Error

/-- Go `func openCheckpointReader(t, workDir, networkPassphrase, checkpointLedger)`:
`none` when one of its two `require.NoError` fails. -/
def openCheckpointReader {ε κ : Type} (w : VerifyWorld ε κ) : Option (ChangeReaderRun ε) :=
  if w.connectErr.isSome then none
  else if w.newCheckpointChangeReaderErr.isSome then none
  else some w.checkpointReader

/-- The four lines that the source repeats for an entry: `key, err := entry.LedgerKey()`,
`require.NoError`, `keyB64, err := key.MarshalBinaryBase64()`, `require.NoError`. The
result is `none` when a requirement fails. -/
def entryKeyB64 {ε κ : Type} (w : VerifyWorld ε κ) (entry : ε) : Option String :=
  match w.LedgerKey entry with
  | (key, err) =>
    if err.isSome then none
    else
      match w.MarshalBinaryBase64 key with
      | (keyB64, err) => if err.isSome then none else some keyB64

/-- Step 1 of `verifyFixturesCompleteness`, the body of its loop over the changes read
from the checkpoint: the key of every non-nil `Post` enters the set. -/
def loadFixtureKeys {ε κ : Type} (w : VerifyWorld ε κ) :
    List (Change ε) → KnownKeys → Option KnownKeys
  | [], knownKeys => some knownKeys
  | change :: rest, knownKeys =>
    match change.Post with
    | some post =>
      match entryKeyB64 w post with
      | none => none
      | some keyB64 => loadFixtureKeys w rest (Function.update knownKeys keyB64 true)
    | none => loadFixtureKeys w rest knownKeys

/-- The body of the inner loop of step 2 for one change: the requirement on `Pre`, then
the update of the set from `Post` (or the deletion of the key of `Pre`). -/
def verifyChange {ε κ : Type} (w : VerifyWorld ε κ) (change : Change ε)
    (knownKeys : KnownKeys) : Option KnownKeys :=
  let preKnown : Bool :=
    match change.Pre with
    | some pre =>
      match entryKeyB64 w pre with
      | none => false
      | some keyB64 => knownKeys keyB64
    | none => true
  if preKnown then
    match change.Post with
    | some post =>
      match entryKeyB64 w post with
      | none => none
      | some keyB64 => some (Function.update knownKeys keyB64 true)
    | none =>
      match change.Pre with
      | some pre =>
        match entryKeyB64 w pre with
        | none => none
        | some keyB64 => some (Function.update knownKeys keyB64 false)
      | none => some knownKeys
  else
    none

/-- The inner loop of step 2 over the changes read from one ledger. -/
def verifyChanges {ε κ : Type} (w : VerifyWorld ε κ) :
    List (Change ε) → KnownKeys → Option KnownKeys
  | [], knownKeys => some knownKeys
  | change :: rest, knownKeys =>
    match verifyChange w change knownKeys with
    | none => none
    | some knownKeys1 => verifyChanges w rest knownKeys1

/-- The outer loop of step 2 over the ledgers read from the metadata stream, followed
by the read that ends the stream. -/
def verifyLedgers {ε κ : Type} (w : VerifyWorld ε κ) (networkPassphrase : String) :
    List xdr.LedgerCloseMeta → KnownKeys → Option KnownKeys
  | [], knownKeys => if w.metadata.err.isSome then none else some knownKeys
  | ledger :: rest, knownKeys =>
    if ledger.ProtocolVersion ≠ w.MaxSupportedProtocolVersion then none
    else
      match w.NewLedgerChangeReaderFromLedgerCloseMeta networkPassphrase ledger with
      | (changeReader, err) =>
        if err.isSome then none
        else
          match verifyChanges w changeReader.reads.items knownKeys with
          | none => none
          | some knownKeys1 =>
            if changeReader.reads.err.isSome then none
            else if changeReader.closeErr.isSome then none
            else verifyLedgers w networkPassphrase rest knownKeys1

/-- Go `func verifyFixturesCompleteness(t, workDir, metadataPath, networkPassphrase,
checkpointLedger)`: `true` when the function returns with no failed requirement. -/
def verifyFixturesCompleteness {ε κ : Type} (w : VerifyWorld ε κ)
    (networkPassphrase : String) : Bool :=
  let knownKeys : KnownKeys := fun _ => false
  match openCheckpointReader w with
  | none => false
  | some checkpointReader =>
    match loadFixtureKeys w checkpointReader.reads.items knownKeys with
    | none => false
    | some knownKeys =>
      if checkpointReader.reads.err.isSome then false
      else if checkpointReader.closeErr.isSome then false
      else if w.openErr.isSome then false
      else (verifyLedgers w networkPassphrase w.metadata.items knownKeys).isSome

/-! ### The inputs and the conditions of the consistency property -/

/-- The base64 key of an entry when both SDK methods succeed. -/
def keyOf {ε κ : Type} (w : VerifyWorld ε κ) (entry : ε) : String :=
  (w.MarshalBinaryBase64 (w.LedgerKey entry).1).1

/-- The initial fixture entries: the non-nil `Post` states read from the checkpoint. -/
def fixtureEntries {ε κ : Type} (w : VerifyWorld ε κ) : List ε :=
  w.checkpointReader.reads.items.filterMap (fun c => c.Post)

/-- The sequence of changes: those of every ledger of the stream, in order. -/
def allChanges {ε κ : Type} (w : VerifyWorld ε κ) (networkPassphrase : String) :
    List (Change ε) :=
  w.metadata.items.flatMap
    (fun ledger => (w.NewLedgerChangeReaderFromLedgerCloseMeta networkPassphrase ledger).1.reads.items)

/-- No failure outside the examined property: every call succeeds, every stream ends
with `io.EOF`, every key can be derived and every ledger has the supported protocol
version. -/
def Untroubled {ε κ : Type} (w : VerifyWorld ε κ) (networkPassphrase : String) : Prop :=
  (∀ e, (w.LedgerKey e).2 = none) ∧
  (∀ k, (w.MarshalBinaryBase64 k).2 = none) ∧
  w.connectErr = none ∧
  w.newCheckpointChangeReaderErr = none ∧
  w.checkpointReader.reads.err = none ∧
  w.checkpointReader.closeErr = none ∧
  w.openErr = none ∧
  w.metadata.err = none ∧
  ∀ ledger ∈ w.metadata.items,
    ledger.ProtocolVersion = w.MaxSupportedProtocolVersion ∧
    (w.NewLedgerChangeReaderFromLedgerCloseMeta networkPassphrase ledger).2 = none ∧
    (w.NewLedgerChangeReaderFromLedgerCloseMeta networkPassphrase ledger).1.reads.err = none ∧
    (w.NewLedgerChangeReaderFromLedgerCloseMeta networkPassphrase ledger).1.closeErr = none

/-- The condition as the specification words it: every change with a non-nil `Pre` has
the key of an initial fixture entry or of the `Post` state of an earlier change. -/
def PreKeysFromFixturesOrPriorPosts {ε : Type} (key : ε → String) (fixtures : List ε)
    (changes : List (Change ε)) : Prop :=
  ∀ (before : List (Change ε)) (c : Change ε) (after : List (Change ε)) (pre : ε),
    changes = before ++ c :: after → c.Pre = some pre →
      (∃ f ∈ fixtures, key f = key pre) ∨
      (∃ d ∈ before, ∃ post, d.Post = some post ∧ key post = key pre)

/-- A change deletes the key `k`: its `Post` is nil and its `Pre` has the key `k`. -/
def Deletes {ε : Type} (key : ε → String) (d : Change ε) (k : String) : Prop :=
  d.Post = none ∧ ∃ pre, d.Pre = some pre ∧ key pre = k

/-- The key `k` is known after the changes `before`, starting from the set `known`: it
was in `known` and no change of `before` deleted it, or a change of `before` has a
`Post` with that key and no later change of `before` deleted it. -/
def KnownAfter {ε : Type} (key : ε → String) (known : KnownKeys) (before : List (Change ε))
    (k : String) : Prop :=
  (known k = true ∧ ∀ d ∈ before, ¬ Deletes key d k) ∨
  (∃ (l1 : List (Change ε)) (d : Change ε) (l2 : List (Change ε)) (post : ε),
    before = l1 ++ d :: l2 ∧ d.Post = some post ∧ key post = k ∧
      ∀ x ∈ l2, ¬ Deletes key x k)

/-- The condition that the code checks: every change with a non-nil `Pre` has a key that
is known after the changes before it, starting from the keys of the initial fixture
entries. -/
def PreKeysKnown {ε : Type} (key : ε → String) (fixtures : List ε)
    (changes : List (Change ε)) : Prop :=
  ∀ (before : List (Change ε)) (c : Change ε) (after : List (Change ε)) (pre : ε),
    changes = before ++ c :: after → c.Pre = some pre →
      KnownAfter key (fun k => decide (∃ f ∈ fixtures, key f = k)) before (key pre)

/-- A world without failures over entries named by strings, each entry being its own
key: the checkpoint holds the given changes and the stream one ledger per given list
of changes (the content of a ledger lists the positions of its changes). -/
def plainWorld (fixtures : List (Change String)) (ledgers : List (List (Change String))) :
    VerifyWorld String String :=
  { LedgerKey := fun e => (e, none),
    MarshalBinaryBase64 := fun k => (k, none),
    connectErr := none,
    newCheckpointChangeReaderErr := none,
    checkpointReader := ⟨⟨fixtures, none⟩, none⟩,
    openErr := none,
    metadata := ⟨(List.range ledgers.length).map (fun i => ⟨i + 2, 23, [i]⟩), none⟩,
    MaxSupportedProtocolVersion := 23,
    NewLedgerChangeReaderFromLedgerCloseMeta := fun _ ledger =>
      (⟨⟨ledgers.getD (ledger.LedgerSequence - 2) [], none⟩, none⟩, none) }

end integration

namespace integration

/-- The update of the known set that one change causes, in terms of keys: the key of a
non-nil `Post` enters the set; with a nil `Post`, the key of a non-nil `Pre` leaves
it. -/
def applyChange {ε : Type} (key : ε → String) (known : KnownKeys) (c : Change ε) :
    KnownKeys :=
  match c.Post with
  | some post => Function.update known (key post) true
  | none =>
    match c.Pre with
    | some pre => Function.update known (key pre) false
    | none => known

end integration

/-! ## Theorems about `evaluateDBState` -/

namespace ingest

/-- The four state constants are pairwise different values. -/
theorem dbState_constants_distinct :
    dbStateEmpty ≠ dbStateValid ∧ dbStateEmpty ≠ dbStateNeedsRebuild ∧
    dbStateEmpty ≠ dbStateInconsistent ∧ dbStateValid ≠ dbStateNeedsRebuild ∧
    dbStateValid ≠ dbStateInconsistent ∧ dbStateNeedsRebuild ≠ dbStateInconsistent := by
  decide

/-- The result of `evaluateDBState`, one case per early return of the source. -/
theorem evaluateDBState_cases (input : dbStateInput) :
    (input.LastIngestedLedger = 0 ∧ evaluateDBState input = dbStateEmpty) ∨
    (input.LastIngestedLedger ≠ 0 ∧ input.IngestVersion ≠ input.CurrentVersion ∧
      evaluateDBState input = dbStateNeedsRebuild) ∨
    (input.LastIngestedLedger ≠ 0 ∧ input.IngestVersion = input.CurrentVersion ∧
      (input.LastHistoryLedger ≠ 0 ∧ input.LastHistoryLedger ≠ input.LastIngestedLedger) ∧
      evaluateDBState input = dbStateInconsistent) ∨
    (input.LastIngestedLedger ≠ 0 ∧ input.IngestVersion = input.CurrentVersion ∧
      (input.LastHistoryLedger = 0 ∨ input.LastHistoryLedger = input.LastIngestedLedger) ∧
      evaluateDBState input = dbStateValid) := by
  unfold evaluateDBState
  by_cases h1 : input.LastIngestedLedger = 0
  · left
    simp [h1]
  · by_cases h2 : input.IngestVersion = input.CurrentVersion
    · by_cases h3 : input.LastHistoryLedger ≠ 0 ∧
          input.LastHistoryLedger ≠ input.LastIngestedLedger
      · right; right; left
        refine ⟨h1, h2, h3, ?_⟩
        rw [if_neg h1, if_neg (not_not.mpr h2), if_pos h3]
      · right; right; right
        refine ⟨h1, h2, ?_, ?_⟩
        · by_cases h4 : input.LastHistoryLedger = 0
          · exact Or.inl h4
          · right
            by_contra h5
            exact h3 ⟨h4, h5⟩
        · rw [if_neg h1, if_neg (not_not.mpr h2), if_neg h3]
    · right; left
      refine ⟨h1, h2, ?_⟩
      rw [if_neg h1, if_pos h2]

/-- C1: for every input (any naturals for the ledgers, any integers, negative ones
included, for the versions) `evaluateDBState` returns the constant of the state that
the first-match-wins rule of the specification selects: Empty if LastIngestedLedger is
0; otherwise NeedsRebuild if the versions differ; otherwise Inconsistent if
LastHistoryLedger is neither 0 nor LastIngestedLedger; otherwise Valid. -/
theorem evaluateDBState_eq_spec (input : dbStateInput) :
    evaluateDBState input = (evaluateDBState_spec input).toDBState := by
  unfold evaluateDBState evaluateDBState_spec specRules
  by_cases h1 : input.LastIngestedLedger = 0
  · simp [List.find?, h1, IngestionState.toDBState]
  · by_cases h2 : input.IngestVersion = input.CurrentVersion
    · by_cases h3 : input.LastHistoryLedger = 0
      · simp [List.find?, h1, h2, h3, IngestionState.toDBState]
      · by_cases h4 : input.LastHistoryLedger = input.LastIngestedLedger
        · simp [List.find?, h1, h2, h3, h4, IngestionState.toDBState]
        · simp [List.find?, h1, h2, h3, h4, IngestionState.toDBState]
    · simp [List.find?, h1, h2, IngestionState.toDBState]

/-- C2: NeedsRebuild takes precedence over Inconsistent: an input with a non-zero
LastIngestedLedger that matches both the version-mismatch condition and the
inconsistency condition is reported as NeedsRebuild, not as Inconsistent (which is
what the same counters give once the versions agree). -/
theorem evaluateDBState_needsRebuild_precedes_inconsistent (input : dbStateInput)
    (hIngested : input.LastIngestedLedger ≠ 0)
    (hVersion : input.IngestVersion ≠ input.CurrentVersion)
    (hHistory : input.LastHistoryLedger ≠ 0)
    (hDisagree : input.LastHistoryLedger ≠ input.LastIngestedLedger) :
    evaluateDBState input = dbStateNeedsRebuild ∧
    evaluateDBState input ≠ dbStateInconsistent ∧
    evaluateDBState { input with IngestVersion := input.CurrentVersion } =
      dbStateInconsistent := by
  have h : evaluateDBState input = dbStateNeedsRebuild := by
    unfold evaluateDBState
    rw [if_neg hIngested, if_pos hVersion]
  refine ⟨h, ?_, ?_⟩
  · rw [h]
    decide
  · unfold evaluateDBState
    rw [if_neg hIngested, if_neg (not_not.mpr rfl), if_pos ⟨hHistory, hDisagree⟩]

/-- Witness of C2 at the input {100, 2, 50, 3}. -/
theorem evaluateDBState_needsRebuild_precedes_inconsistent_witness :
    ((100 : Nat) ≠ 0 ∧ (2 : Int) ≠ 3 ∧ (50 : Nat) ≠ 0 ∧ (50 : Nat) ≠ 100) ∧
    evaluateDBState ⟨100, 2, 50, 3⟩ = dbStateNeedsRebuild ∧
    evaluateDBState ⟨100, 2, 50, 3⟩ ≠ dbStateInconsistent ∧
    evaluateDBState ⟨100, 3, 50, 3⟩ = dbStateInconsistent :=
  ⟨by decide,
   evaluateDBState_needsRebuild_precedes_inconsistent ⟨100, 2, 50, 3⟩
     (by decide) (by decide) (by decide) (by decide)⟩

/-- C3: `evaluateDBState` returns Empty if and only if LastIngestedLedger is 0,
whatever the other three fields are; in particular {0, 5, 100, 5} gives Empty. -/
theorem evaluateDBState_empty_iff :
    (∀ input : dbStateInput,
      evaluateDBState input = dbStateEmpty ↔ input.LastIngestedLedger = 0) ∧
    (∀ (v c : Int) (h : Nat), evaluateDBState ⟨0, v, h, c⟩ = dbStateEmpty) ∧
    evaluateDBState ⟨0, 5, 100, 5⟩ = dbStateEmpty := by
  have hd := dbState_constants_distinct
  refine ⟨fun input => ⟨fun h => ?_, fun h => ?_⟩, fun v c h => ?_, by decide⟩
  · rcases evaluateDBState_cases input with ⟨h0, _⟩ | ⟨_, _, h2⟩ | ⟨_, _, _, h3⟩ | ⟨_, _, _, h4⟩
    · exact h0
    · rw [h] at h2
      exact absurd h2 hd.2.1
    · rw [h] at h3
      exact absurd h3 hd.2.2.1
    · rw [h] at h4
      exact absurd h4 hd.1
  · unfold evaluateDBState
    rw [if_pos h]
  · unfold evaluateDBState
    rw [if_pos rfl]

/-- C4: Inconsistent can only arise when both counters are non-zero and disagree: if
`evaluateDBState` returns Inconsistent then LastIngestedLedger is not 0,
LastHistoryLedger is not 0 and the two differ. -/
theorem evaluateDBState_inconsistent_only_if (input : dbStateInput)
    (h : evaluateDBState input = dbStateInconsistent) :
    input.LastIngestedLedger ≠ 0 ∧ input.LastHistoryLedger ≠ 0 ∧
    input.LastHistoryLedger ≠ input.LastIngestedLedger := by
  have hd := dbState_constants_distinct
  rcases evaluateDBState_cases input with ⟨_, h1⟩ | ⟨_, _, h2⟩ | ⟨h0, _, h3, _⟩ | ⟨_, _, _, h4⟩
  · rw [h] at h1
    exact absurd h1.symm hd.2.2.1
  · rw [h] at h2
    exact absurd h2.symm hd.2.2.2.2.2
  · exact ⟨h0, h3.1, h3.2⟩
  · rw [h] at h4
    exact absurd h4.symm hd.2.2.2.2.1

/-- Witness of C4 at the input {100, 3, 50, 3}, which is reported Inconsistent. -/
theorem evaluateDBState_inconsistent_only_if_witness :
    evaluateDBState ⟨100, 3, 50, 3⟩ = dbStateInconsistent ∧
    ((100 : Nat) ≠ 0 ∧ (50 : Nat) ≠ 0 ∧ (50 : Nat) ≠ 100) :=
  ⟨by decide, evaluateDBState_inconsistent_only_if ⟨100, 3, 50, 3⟩ (by decide)⟩

/-- C5: `evaluateDBState` returns Valid if and only if LastIngestedLedger is not 0, the
versions are equal, and LastHistoryLedger is 0 or equal to LastIngestedLedger; so a
zero history mark with a non-zero checkpoint and matching versions is Valid, and
{100, 3, 0, 3} and {100, 3, 100, 3} both give Valid. -/
theorem evaluateDBState_valid_iff :
    (∀ input : dbStateInput,
      evaluateDBState input = dbStateValid ↔
        (input.LastIngestedLedger ≠ 0 ∧ input.IngestVersion = input.CurrentVersion ∧
          (input.LastHistoryLedger = 0 ∨
            input.LastHistoryLedger = input.LastIngestedLedger))) ∧
    (∀ (l : Nat) (v : Int), l ≠ 0 → evaluateDBState ⟨l, v, 0, v⟩ = dbStateValid) ∧
    evaluateDBState ⟨100, 3, 0, 3⟩ = dbStateValid ∧
    evaluateDBState ⟨100, 3, 100, 3⟩ = dbStateValid := by
  have hd := dbState_constants_distinct
  have key : ∀ input : dbStateInput,
      evaluateDBState input = dbStateValid ↔
        (input.LastIngestedLedger ≠ 0 ∧ input.IngestVersion = input.CurrentVersion ∧
          (input.LastHistoryLedger = 0 ∨
            input.LastHistoryLedger = input.LastIngestedLedger)) := by
    intro input
    constructor
    · intro h
      rcases evaluateDBState_cases input with
        ⟨_, h1⟩ | ⟨_, _, h2⟩ | ⟨_, _, _, h3⟩ | ⟨h0, hv, hh, _⟩
      · rw [h] at h1
        exact absurd h1.symm hd.1
      · rw [h] at h2
        exact absurd h2 hd.2.2.2.1
      · rw [h] at h3
        exact absurd h3 hd.2.2.2.2.1
      · exact ⟨h0, hv, hh⟩
    · rintro ⟨h0, hv, hh⟩
      rcases evaluateDBState_cases input with
        ⟨h1, _⟩ | ⟨_, h2, _⟩ | ⟨_, _, h3, _⟩ | ⟨_, _, _, h4⟩
      · exact absurd h1 h0
      · exact absurd hv h2
      · rcases hh with hz | he
        · exact absurd hz h3.1
        · exact absurd he h3.2
      · exact h4
  refine ⟨key, fun l v hl => ?_, by decide, by decide⟩
  exact (key ⟨l, v, 0, v⟩).mpr ⟨hl, rfl, Or.inl rfl⟩

/-- C6, as amended: `evaluateDBState` returns NeedsRebuild exactly when
LastIngestedLedger is not 0 and IngestVersion differs from CurrentVersion. -/
theorem evaluateDBState_needsRebuild_iff (input : dbStateInput) :
    evaluateDBState input = dbStateNeedsRebuild ↔
      (input.LastIngestedLedger ≠ 0 ∧ input.IngestVersion ≠ input.CurrentVersion) := by
  have hd := dbState_constants_distinct
  constructor
  · intro h
    rcases evaluateDBState_cases input with
      ⟨_, h1⟩ | ⟨h0, hv, _⟩ | ⟨_, _, _, h3⟩ | ⟨_, _, _, h4⟩
    · rw [h] at h1
      exact absurd h1.symm hd.2.1
    · exact ⟨h0, hv⟩
    · rw [h] at h3
      exact absurd h3 hd.2.2.2.2.2
    · rw [h] at h4
      exact absurd h4.symm hd.2.2.2.1
  · rintro ⟨h0, hv⟩
    unfold evaluateDBState
    rw [if_neg h0, if_pos hv]

/-- C6, as stated, fails: on the empty database {0, 2, 0, 3} the versions differ and
the result is Empty, not NeedsRebuild, so "NeedsRebuild exactly when the versions
differ" does not hold for every input. -/
theorem evaluateDBState_needsRebuild_iff_version_mismatch_fails :
    evaluateDBState ⟨0, 2, 0, 3⟩ = dbStateEmpty ∧
    ¬ (evaluateDBState ⟨0, 2, 0, 3⟩ = dbStateNeedsRebuild ↔ (2 : Int) ≠ 3) ∧
    ¬ (∀ input : dbStateInput,
        evaluateDBState input = dbStateNeedsRebuild ↔
          input.IngestVersion ≠ input.CurrentVersion) := by
  refine ⟨by decide, by decide, fun h => ?_⟩
  have h1 := (h ⟨0, 2, 0, 3⟩).mpr (by decide)
  revert h1
  decide

/-- C7: `evaluateDBState` is a total function whose result is always one of the four
named constants, so `dbState.String` renders it as one of "empty", "valid",
"needs_rebuild", "inconsistent" and never as "unknown"; the four states render to the
four strings in that order, which are pairwise distinct. -/
theorem evaluateDBState_result_named :
    (∀ input : dbStateInput,
      (evaluateDBState input = dbStateEmpty ∨ evaluateDBState input = dbStateValid ∨
        evaluateDBState input = dbStateNeedsRebuild ∨
        evaluateDBState input = dbStateInconsistent) ∧
      dbState.String (evaluateDBState input) ∈
        ["empty", "valid", "needs_rebuild", "inconsistent"] ∧
      dbState.String (evaluateDBState input) ≠ "unknown") ∧
    List.map dbState.String
        [dbStateEmpty, dbStateValid, dbStateNeedsRebuild, dbStateInconsistent] =
      ["empty", "valid", "needs_rebuild", "inconsistent"] ∧
    List.Nodup (List.map dbState.String
        [dbStateEmpty, dbStateValid, dbStateNeedsRebuild, dbStateInconsistent]) := by
  refine ⟨fun input => ?_, by decide, by decide⟩
  rcases evaluateDBState_cases input with
    ⟨_, h⟩ | ⟨_, _, h⟩ | ⟨_, _, _, h⟩ | ⟨_, _, _, h⟩
  · rw [h]
    exact ⟨Or.inl rfl, by decide, by decide⟩
  · rw [h]
    exact ⟨Or.inr (Or.inr (Or.inl rfl)), by decide, by decide⟩
  · rw [h]
    exact ⟨Or.inr (Or.inr (Or.inr rfl)), by decide, by decide⟩
  · rw [h]
    exact ⟨Or.inr (Or.inl rfl), by decide, by decide⟩

/-- C8: `checkDBState` reuses `evaluateDBState` exactly: when the three queries, called
in sequence on the store, succeed (nil error) with values `l`, `v` and `h`, the result
is the state that `evaluateDBState` gives for LastIngestedLedger `l`, IngestVersion
`v`, LastHistoryLedger `h` and CurrentVersion `currentVersion`, together with `l` and a
nil error. -/
theorem checkDBState_eq_evaluateDBState {κ σ : Type} (ctx : κ) (historyQ : IngestionQ κ σ)
    (currentVersion : Int) (s s1 s2 s3 : σ) (l h : Nat) (v : Int)
    (hl : historyQ.GetLastLedgerIngestNonBlocking ctx s = ((l, none), s1))
    (hv : historyQ.GetIngestVersion ctx s1 = ((v, none), s2))
    (hh : historyQ.GetLatestHistoryLedger ctx s2 = ((h, none), s3)) :
    checkDBState ctx historyQ currentVersion s =
      ((evaluateDBState
          { LastIngestedLedger := l, IngestVersion := v, LastHistoryLedger := h,
            CurrentVersion := currentVersion },
        l, none), s3) := by
  simp [checkDBState, hl, hv, hh]

/-- Witness of C8: a store answering 100, 2 and 50 with current version 3; the three
queries are called once each, in the order of the source, and the state is the one
`evaluateDBState` gives for {100, 2, 50, 3}. -/
theorem checkDBState_eq_evaluateDBState_witness :
    checkDBState () (stubIngestionQ (100, none) (2, none) (50, none)) 3 [] =
      ((evaluateDBState ⟨100, 2, 50, 3⟩, 100, none),
        ["GetLastLedgerIngestNonBlocking", "GetIngestVersion", "GetLatestHistoryLedger"]) ∧
    evaluateDBState ⟨100, 2, 50, 3⟩ = dbStateNeedsRebuild :=
  ⟨checkDBState_eq_evaluateDBState () (stubIngestionQ (100, none) (2, none) (50, none)) 3
      [] ["GetLastLedgerIngestNonBlocking"]
      ["GetLastLedgerIngestNonBlocking", "GetIngestVersion"]
      ["GetLastLedgerIngestNonBlocking", "GetIngestVersion", "GetLatestHistoryLedger"]
      100 50 2 rfl rfl rfl,
   by decide⟩

end ingest

/-! ## Theorems about the capability-gated processors -/

namespace processors

/-- C9: a dispatch miss is not an error. For every operation, `detailsForXdrHelloWorld`
and `participantsForXdrHelloWorld` each report applicable = true if and only if the
operation type is `OperationTypeHelloWorld`; neither ever returns a non-nil error; the
details are the empty non-nil map exactly on a match and nil exactly on a miss; the
participants are nil in both cases. -/
theorem xdrHelloWorld_dispatch (ι : Type) (OperationTypeHelloWorld : xdr.OperationType)
    (operation : transactionOperationWrapper) :
    (((detailsForXdrHelloWorld ι OperationTypeHelloWorld operation).2.2 = true ↔
        operation.OperationType = OperationTypeHelloWorld) ∧
      (detailsForXdrHelloWorld ι OperationTypeHelloWorld operation).2.1 = none ∧
      ((detailsForXdrHelloWorld ι OperationTypeHelloWorld operation).1 = some [] ↔
        operation.OperationType = OperationTypeHelloWorld) ∧
      ((detailsForXdrHelloWorld ι OperationTypeHelloWorld operation).1 = none ↔
        (detailsForXdrHelloWorld ι OperationTypeHelloWorld operation).2.2 = false)) ∧
    (((participantsForXdrHelloWorld OperationTypeHelloWorld operation).2.2 = true ↔
        operation.OperationType = OperationTypeHelloWorld) ∧
      (participantsForXdrHelloWorld OperationTypeHelloWorld operation).2.1 = none ∧
      (participantsForXdrHelloWorld OperationTypeHelloWorld operation).1 = none) := by
  unfold detailsForXdrHelloWorld participantsForXdrHelloWorld
  by_cases h : operation.OperationType = OperationTypeHelloWorld
  · simp [h]
  · simp [h]

end processors

namespace contractevents

/-- C10: `parseSacEventFromTxMetaForXdrTransactionMetaV5` is applicable exactly when
the transaction meta version is 5. For version 5 it returns the event and the error of
`parseSacEventFromTxMetaV4 event networkPassphrase` with applicable = true; for every
other version it returns (nil, nil, false). So a non-nil error is returned only for
version 5 with a failed V4 parse. -/
theorem parseSacEventFromTxMetaForXdrTransactionMetaV5_dispatch {ε ρ : Type}
    (parseSacEventFromTxMetaV4 : Option ε → String → Option ρ × Option Error)
    (tx : LedgerTransaction) (event : Option ε) (networkPassphrase : String) :
    ((parseSacEventFromTxMetaForXdrTransactionMetaV5 parseSacEventFromTxMetaV4 tx event
        networkPassphrase).2.2 = true ↔ tx.UnsafeMeta.V = 5) ∧
    (tx.UnsafeMeta.V = 5 →
      parseSacEventFromTxMetaForXdrTransactionMetaV5 parseSacEventFromTxMetaV4 tx event
          networkPassphrase =
        ((parseSacEventFromTxMetaV4 event networkPassphrase).1,
          (parseSacEventFromTxMetaV4 event networkPassphrase).2, true)) ∧
    (tx.UnsafeMeta.V ≠ 5 →
      parseSacEventFromTxMetaForXdrTransactionMetaV5 parseSacEventFromTxMetaV4 tx event
          networkPassphrase = (none, none, false)) ∧
    ((parseSacEventFromTxMetaForXdrTransactionMetaV5 parseSacEventFromTxMetaV4 tx event
        networkPassphrase).2.1 ≠ none →
      tx.UnsafeMeta.V = 5 ∧ (parseSacEventFromTxMetaV4 event networkPassphrase).2 ≠ none) := by
  unfold parseSacEventFromTxMetaForXdrTransactionMetaV5
  by_cases h : tx.UnsafeMeta.V = 5
  · simp [h]
  · simp [h]

/-- Witness of C10: with a V4 parser that fails on a nil event, a version 5 meta
returns that parser's failure or success with applicable = true, and a version 4 meta
declines with (nil, nil, false). -/
theorem parseSacEventFromTxMetaForXdrTransactionMetaV5_dispatch_witness :
    parseSacEventFromTxMetaForXdrTransactionMetaV5 stubParseSacEventFromTxMetaV4
        (txWithMetaVersion 5) none "Test SDF Network ; September 2015" =
      (none, some (Error.base "contract event is nil"), true) ∧
    parseSacEventFromTxMetaForXdrTransactionMetaV5 stubParseSacEventFromTxMetaV4
        (txWithMetaVersion 5) (some [7]) "Test SDF Network ; September 2015" =
      (some ("Test SDF Network ; September 2015", [7]), none, true) ∧
    parseSacEventFromTxMetaForXdrTransactionMetaV5 stubParseSacEventFromTxMetaV4
        (txWithMetaVersion 4) none "Test SDF Network ; September 2015" =
      (none, none, false) :=
  ⟨(parseSacEventFromTxMetaForXdrTransactionMetaV5_dispatch stubParseSacEventFromTxMetaV4
      (txWithMetaVersion 5) none "Test SDF Network ; September 2015").2.1 rfl,
   (parseSacEventFromTxMetaForXdrTransactionMetaV5_dispatch stubParseSacEventFromTxMetaV4
      (txWithMetaVersion 5) (some [7]) "Test SDF Network ; September 2015").2.1 rfl,
   (parseSacEventFromTxMetaForXdrTransactionMetaV5_dispatch stubParseSacEventFromTxMetaV4
      (txWithMetaVersion 4) none "Test SDF Network ; September 2015").2.2.1 (by decide)⟩

end contractevents

/-! ## Theorems about the per-kind operation counter -/

/-- Wrapping to `int64` always lands in the `int64` range. -/
theorem inInt64_wrapInt64 (x : Int) : inInt64 (wrapInt64 x) := by
  unfold inInt64 wrapInt64
  omega

/-- Wrapping leaves an integer of the `int64` range unchanged. -/
theorem wrapInt64_of_inInt64 (x : Int) (h : inInt64 x) : wrapInt64 x = x := by
  unfold inInt64 at h
  unfold wrapInt64
  omega

/-- Wrapping an intermediate sum does not change the wrapped total. -/
theorem wrapInt64_add_wrapInt64 (a b : Int) :
    wrapInt64 (wrapInt64 a + b) = wrapInt64 (a + b) := by
  unfold wrapInt64
  omega

namespace processors

/-- The accumulator and the flags after counting a list of bodies, in closed form. -/
theorem countOperationTypesForXdrHelloWorld_closed_form
    (OperationTypeHelloWorld : xdr.OperationType)
    (bodies : List xdr.OperationBody) (results : StatsLedgerTransactionProcessorResults)
    (hInit : inInt64 results.OperationsHelloWorld) :
    countOperationTypesForXdrHelloWorld OperationTypeHelloWorld results bodies =
      ({ OperationsHelloWorld :=
            wrapInt64 (results.OperationsHelloWorld +
              (helloWorldBodies OperationTypeHelloWorld bodies : Int)),
          otherCounters := results.otherCounters },
        bodies.map (fun b => decide (b.Type_ = OperationTypeHelloWorld))) := by
  induction bodies generalizing results with
  | nil =>
    simp [countOperationTypesForXdrHelloWorld, helloWorldBodies,
      wrapInt64_of_inInt64 _ hInit]
  | cons b rest ih =>
    unfold countOperationTypesForXdrHelloWorld countOperationTypeForXdrHelloWorld
    by_cases hb : b.Type_ = OperationTypeHelloWorld
    · have hcount : helloWorldBodies OperationTypeHelloWorld (b :: rest) =
          helloWorldBodies OperationTypeHelloWorld rest + 1 := by
        unfold helloWorldBodies
        exact List.countP_cons_of_pos _ rest (by simpa using hb)
      have hd : decide (b.Type_ = OperationTypeHelloWorld) = true := by simpa using hb
      rw [if_pos hb]
      simp only []
      rw [ih _ (inInt64_wrapInt64 _)]
      simp only [List.map_cons, hcount, hd, wrapInt64_add_wrapInt64]
      have harith : results.OperationsHelloWorld + 1 +
            (helloWorldBodies OperationTypeHelloWorld rest : Int) =
          results.OperationsHelloWorld +
            ((helloWorldBodies OperationTypeHelloWorld rest + 1 : Nat) : Int) := by
        push_cast
        ring
      rw [harith]
    · have hcount : helloWorldBodies OperationTypeHelloWorld (b :: rest) =
          helloWorldBodies OperationTypeHelloWorld rest := by
        unfold helloWorldBodies
        exact List.countP_cons_of_neg _ rest (by simpa using hb)
      have hd : decide (b.Type_ = OperationTypeHelloWorld) = false := by simpa using hb
      rw [if_neg hb]
      simp only []
      rw [ih _ hInit]
      simp only [List.map_cons, hcount, hd]

end processors

namespace processors

/-- C11, as amended: per-kind counting is an additive, order-independent fold in
`int64` arithmetic. For every initial accumulator (its counter being an `int64`) and
every list of operation bodies, applying `countOperationTypeForXdrHelloWorld` to each
body in turn yields OperationsHelloWorld = initial value + the number of bodies of type
`OperationTypeHelloWorld` reduced to the `int64` range by two's complement wrap-around,
which is exactly that sum whenever the sum is itself in the `int64` range; it returns
true exactly on those bodies, changes no other field, and gives the same final
accumulator for every permutation of the list. -/
theorem countOperationTypeForXdrHelloWorld_additive_fold
    (OperationTypeHelloWorld : xdr.OperationType)
    (results : StatsLedgerTransactionProcessorResults)
    (bodies permuted : List xdr.OperationBody)
    (hInit : inInt64 results.OperationsHelloWorld)
    (hPerm : List.Perm bodies permuted) :
    (countOperationTypesForXdrHelloWorld OperationTypeHelloWorld results
        bodies).1.OperationsHelloWorld =
      wrapInt64 (results.OperationsHelloWorld +
        (helloWorldBodies OperationTypeHelloWorld bodies : Int)) ∧
    (inInt64 (results.OperationsHelloWorld +
        (helloWorldBodies OperationTypeHelloWorld bodies : Int)) →
      (countOperationTypesForXdrHelloWorld OperationTypeHelloWorld results
          bodies).1.OperationsHelloWorld =
        results.OperationsHelloWorld +
          (helloWorldBodies OperationTypeHelloWorld bodies : Int)) ∧
    (countOperationTypesForXdrHelloWorld OperationTypeHelloWorld results bodies).2 =
      bodies.map (fun b => decide (b.Type_ = OperationTypeHelloWorld)) ∧
    (∀ b : xdr.OperationBody,
      (countOperationTypeForXdrHelloWorld OperationTypeHelloWorld results b).2 = true ↔
        b.Type_ = OperationTypeHelloWorld) ∧
    (countOperationTypesForXdrHelloWorld OperationTypeHelloWorld results
        bodies).1.otherCounters = results.otherCounters ∧
    (countOperationTypesForXdrHelloWorld OperationTypeHelloWorld results permuted).1 =
      (countOperationTypesForXdrHelloWorld OperationTypeHelloWorld results bodies).1 := by
  have hcount : helloWorldBodies OperationTypeHelloWorld permuted =
      helloWorldBodies OperationTypeHelloWorld bodies := by
    unfold helloWorldBodies
    exact (List.Perm.countP_eq _ hPerm).symm
  rw [countOperationTypesForXdrHelloWorld_closed_form _ bodies results hInit,
    countOperationTypesForXdrHelloWorld_closed_form _ permuted results hInit, hcount]
  refine ⟨rfl, fun h => wrapInt64_of_inInt64 _ h, rfl, fun b => ?_, rfl, rfl⟩
  unfold countOperationTypeForXdrHelloWorld
  by_cases hb : b.Type_ = OperationTypeHelloWorld
  · simp [hb]
  · simp [hb]

/-- Witness of the amended C11: with type 27 for HelloWorld, a counter starting at 5 and the bodies
of types 27, 1, 27 (or the permutation 1, 27, 27) the counter ends at 7, the flags are
true, false, true, and the other counter is untouched. At the largest `int64` the
increment wraps around. -/
theorem countOperationTypeForXdrHelloWorld_additive_fold_witness :
    (countOperationTypesForXdrHelloWorld 27 ⟨5, [("Operations", 9)]⟩
        [⟨27, []⟩, ⟨1, []⟩, ⟨27, [1]⟩]).1.OperationsHelloWorld = wrapInt64 (5 + (2 : Nat)) ∧
    countOperationTypesForXdrHelloWorld 27 ⟨5, [("Operations", 9)]⟩
        [⟨27, []⟩, ⟨1, []⟩, ⟨27, [1]⟩] =
      (⟨7, [("Operations", 9)]⟩, [true, false, true]) ∧
    (countOperationTypesForXdrHelloWorld 27 ⟨5, [("Operations", 9)]⟩
        [⟨1, []⟩, ⟨27, []⟩, ⟨27, [1]⟩]).1 =
      (countOperationTypesForXdrHelloWorld 27 ⟨5, [("Operations", 9)]⟩
        [⟨27, []⟩, ⟨1, []⟩, ⟨27, [1]⟩]).1 ∧
    (countOperationTypeForXdrHelloWorld 27 ⟨9223372036854775807, []⟩ ⟨27, []⟩).1 =
      ⟨-9223372036854775808, []⟩ :=
  ⟨(countOperationTypeForXdrHelloWorld_additive_fold 27 ⟨5, [("Operations", 9)]⟩
      [⟨27, []⟩, ⟨1, []⟩, ⟨27, [1]⟩] [⟨1, []⟩, ⟨27, []⟩, ⟨27, [1]⟩]
      (by decide) (List.Perm.swap _ _ _)).1,
   by decide,
   (countOperationTypeForXdrHelloWorld_additive_fold 27 ⟨5, [("Operations", 9)]⟩
      [⟨27, []⟩, ⟨1, []⟩, ⟨27, [1]⟩] [⟨1, []⟩, ⟨27, []⟩, ⟨27, [1]⟩]
      (by decide) (List.Perm.swap _ _ _)).2.2.2.2.2,
   by decide⟩

/-- C11, as stated, fails: with the counter at the largest `int64`
(9223372036854775807) and one body of type HelloWorld, the counter after counting is
the smallest `int64` (-9223372036854775808), not the initial value plus the one
HelloWorld body; so "initial value + the number of HelloWorld bodies" does not hold for
every initial accumulator. -/
theorem countOperationTypeForXdrHelloWorld_exact_sum_fails :
    inInt64 9223372036854775807 ∧
    helloWorldBodies 27 [⟨27, []⟩] = 1 ∧
    countOperationTypesForXdrHelloWorld 27 ⟨9223372036854775807, []⟩ [⟨27, []⟩] =
      (⟨-9223372036854775808, []⟩, [true]) ∧
    (countOperationTypesForXdrHelloWorld 27 ⟨9223372036854775807, []⟩
        [⟨27, []⟩]).1.OperationsHelloWorld ≠
      9223372036854775807 + (helloWorldBodies 27 [⟨27, []⟩] : Int) ∧
    ¬ (∀ (OperationTypeHelloWorld : xdr.OperationType)
        (results : StatsLedgerTransactionProcessorResults)
        (bodies : List xdr.OperationBody),
        inInt64 results.OperationsHelloWorld →
        (countOperationTypesForXdrHelloWorld OperationTypeHelloWorld results
            bodies).1.OperationsHelloWorld =
          results.OperationsHelloWorld +
            (helloWorldBodies OperationTypeHelloWorld bodies : Int)) := by
  refine ⟨by decide, by decide, by decide, by decide, fun h => ?_⟩
  have h1 := h 27 ⟨9223372036854775807, []⟩ [⟨27, []⟩] (by decide)
  revert h1
  decide

end processors

namespace processors

/-- C14: `elideTransactionMetaForXdrTransactionMetaV5` returns true if and only if
`meta.V` is 5. When it returns false the meta is unchanged. When it returns true the
V5 arm becomes a meta with empty TxChangesBefore, Operations, TxChangesAfter, Events
and DiagnosticEvents and nil SorobanMeta, while `V` and every other arm are unchanged.
Applying it twice gives the same meta and the same result as applying it once. -/
theorem elideTransactionMetaForXdrTransactionMetaV5_frame (m : xdr.TransactionMeta) :
    ((elideTransactionMetaForXdrTransactionMetaV5 m).2 = true ↔ m.V = 5) ∧
    ((elideTransactionMetaForXdrTransactionMetaV5 m).2 = false →
      (elideTransactionMetaForXdrTransactionMetaV5 m).1 = m) ∧
    ((elideTransactionMetaForXdrTransactionMetaV5 m).2 = true →
      (elideTransactionMetaForXdrTransactionMetaV5 m).1.V5 =
          some
            { Ext := 0, TxChangesBefore := some [], Operations := some [],
              TxChangesAfter := some [], SorobanMeta := none, Events := some [],
              DiagnosticEvents := some [] } ∧
        (elideTransactionMetaForXdrTransactionMetaV5 m).1.V = m.V ∧
        (elideTransactionMetaForXdrTransactionMetaV5 m).1.Operations = m.Operations ∧
        (elideTransactionMetaForXdrTransactionMetaV5 m).1.V1 = m.V1 ∧
        (elideTransactionMetaForXdrTransactionMetaV5 m).1.V2 = m.V2 ∧
        (elideTransactionMetaForXdrTransactionMetaV5 m).1.V3 = m.V3 ∧
        (elideTransactionMetaForXdrTransactionMetaV5 m).1.V4 = m.V4) ∧
    elideTransactionMetaForXdrTransactionMetaV5
        (elideTransactionMetaForXdrTransactionMetaV5 m).1 =
      elideTransactionMetaForXdrTransactionMetaV5 m := by
  unfold elideTransactionMetaForXdrTransactionMetaV5
  by_cases h : m.V = 5
  · simp [h]
  · simp [h]

/-- Witness of C14: a version 5 meta whose V5 arm holds changes is elided, its V4 arm
and `V` staying as they were; a version 4 meta is returned unchanged with false. -/
theorem elideTransactionMetaForXdrTransactionMetaV5_frame_witness :
    elideTransactionMetaForXdrTransactionMetaV5
        { V := 5, Operations := none, V1 := none, V2 := none, V3 := none, V4 := some [4],
          V5 := some
            { Ext := 0, TxChangesBefore := some [[1]], Operations := some [[2], [3]],
              TxChangesAfter := none, SorobanMeta := some [9], Events := some [[5]],
              DiagnosticEvents := none } } =
      ({ V := 5, Operations := none, V1 := none, V2 := none, V3 := none, V4 := some [4],
         V5 := some
            { Ext := 0, TxChangesBefore := some [], Operations := some [],
              TxChangesAfter := some [], SorobanMeta := none, Events := some [],
              DiagnosticEvents := some [] } }, true) ∧
    (elideTransactionMetaForXdrTransactionMetaV5
        { V := 4, Operations := none, V1 := none, V2 := none, V3 := none, V4 := some [4],
          V5 := some
            { Ext := 0, TxChangesBefore := some [[1]], Operations := none,
              TxChangesAfter := none, SorobanMeta := none, Events := none,
              DiagnosticEvents := none } }).1 =
      { V := 4, Operations := none, V1 := none, V2 := none, V3 := none, V4 := some [4],
        V5 := some
          { Ext := 0, TxChangesBefore := some [[1]], Operations := none,
            TxChangesAfter := none, SorobanMeta := none, Events := none,
            DiagnosticEvents := none } } :=
  ⟨by decide,
   (elideTransactionMetaForXdrTransactionMetaV5_frame
      { V := 4, Operations := none, V1 := none, V2 := none, V3 := none, V4 := some [4],
        V5 := some
          { Ext := 0, TxChangesBefore := some [[1]], Operations := none,
            TxChangesAfter := none, SorobanMeta := none, Events := none,
            DiagnosticEvents := none } }).2.1 (by decide)⟩

end processors

/-! ## Theorems about the failures of `checkDBState` -/

namespace ingest

/-- C13: `checkDBState` fails if and only if one of its three queries fails. The
queries run in the order GetLastLedgerIngestNonBlocking, GetIngestVersion,
GetLatestHistoryLedger, each on the store as the previous one left it, and the first
failure wins: the result is then state 0 and ledger 0 with the error wrapped with the
message naming the failed query, the store is as that query left it (later queries are
not called), and the result of `evaluateDBState` plays no part. -/
theorem checkDBState_failure {κ σ : Type} (ctx : κ) (historyQ : IngestionQ κ σ)
    (currentVersion : Int) (s : σ) :
    ((checkDBState ctx historyQ currentVersion s).1.2.2 ≠ none ↔
      ((historyQ.GetLastLedgerIngestNonBlocking ctx s).1.2 ≠ none ∨
        (historyQ.GetIngestVersion ctx
          (historyQ.GetLastLedgerIngestNonBlocking ctx s).2).1.2 ≠ none ∨
        (historyQ.GetLatestHistoryLedger ctx
          (historyQ.GetIngestVersion ctx
            (historyQ.GetLastLedgerIngestNonBlocking ctx s).2).2).1.2 ≠ none)) ∧
    (∀ e : Error, (historyQ.GetLastLedgerIngestNonBlocking ctx s).1.2 = some e →
      checkDBState ctx historyQ currentVersion s =
        ((⟨0⟩, 0, some (Error.wrap e "error getting last ingested ledger")),
          (historyQ.GetLastLedgerIngestNonBlocking ctx s).2)) ∧
    (∀ e : Error, (historyQ.GetLastLedgerIngestNonBlocking ctx s).1.2 = none →
      (historyQ.GetIngestVersion ctx
        (historyQ.GetLastLedgerIngestNonBlocking ctx s).2).1.2 = some e →
      checkDBState ctx historyQ currentVersion s =
        ((⟨0⟩, 0, some (Error.wrap e "error getting ingest version")),
          (historyQ.GetIngestVersion ctx
            (historyQ.GetLastLedgerIngestNonBlocking ctx s).2).2)) ∧
    (∀ e : Error, (historyQ.GetLastLedgerIngestNonBlocking ctx s).1.2 = none →
      (historyQ.GetIngestVersion ctx
        (historyQ.GetLastLedgerIngestNonBlocking ctx s).2).1.2 = none →
      (historyQ.GetLatestHistoryLedger ctx
        (historyQ.GetIngestVersion ctx
          (historyQ.GetLastLedgerIngestNonBlocking ctx s).2).2).1.2 = some e →
      checkDBState ctx historyQ currentVersion s =
        ((⟨0⟩, 0, some (Error.wrap e "error getting last history ledger")),
          (historyQ.GetLatestHistoryLedger ctx
            (historyQ.GetIngestVersion ctx
              (historyQ.GetLastLedgerIngestNonBlocking ctx s).2).2).2)) := by
  unfold checkDBState
  rcases h1 : historyQ.GetLastLedgerIngestNonBlocking ctx s with ⟨⟨l, e1⟩, s1⟩
  rcases h2 : historyQ.GetIngestVersion ctx s1 with ⟨⟨v, e2⟩, s2⟩
  rcases h3 : historyQ.GetLatestHistoryLedger ctx s2 with ⟨⟨h, e3⟩, s3⟩
  cases e1 <;> cases e2 <;> cases e3 <;> simp [h2, h3, errors.Wrap]

end ingest

namespace ingest

/-- Witness of C13 on the logging test double: when the first query fails only that
query is called; when the second fails the third is not called. -/
theorem checkDBState_failure_witness :
    checkDBState ()
        (stubIngestionQ (7, some (Error.base "db down")) (3, none) (7, none)) 3 [] =
      ((⟨0⟩, 0,
          some (Error.wrap (Error.base "db down") "error getting last ingested ledger")),
        ["GetLastLedgerIngestNonBlocking"]) ∧
    checkDBState ()
        (stubIngestionQ (100, none) (2, some (Error.base "timeout"))
          (50, some (Error.base "late"))) 3 [] =
      ((⟨0⟩, 0, some (Error.wrap (Error.base "timeout") "error getting ingest version")),
        ["GetLastLedgerIngestNonBlocking", "GetIngestVersion"]) ∧
    checkDBState ()
        (stubIngestionQ (100, none) (3, none) (50, some (Error.base "late"))) 3 [] =
      ((⟨0⟩, 0, some (Error.wrap (Error.base "late") "error getting last history ledger")),
        ["GetLastLedgerIngestNonBlocking", "GetIngestVersion", "GetLatestHistoryLedger"]) :=
  ⟨(checkDBState_failure ()
      (stubIngestionQ (7, some (Error.base "db down")) (3, none) (7, none)) 3 []).2.1
      (Error.base "db down") rfl,
   (checkDBState_failure ()
      (stubIngestionQ (100, none) (2, some (Error.base "timeout"))
        (50, some (Error.base "late"))) 3 []).2.2.1
      (Error.base "timeout") rfl rfl,
   (checkDBState_failure ()
      (stubIngestionQ (100, none) (3, none) (50, some (Error.base "late"))) 3 []).2.2.2
      (Error.base "late") rfl rfl rfl⟩

end ingest

/-! ## Theorems about the release build script -/

namespace build_release_artifacts

/-- Every version that `main` passes to `build` is non-empty, so `version[1:]` is in
range and `build` reaches its command. -/
theorem main_versions_nonempty (w : Surroundings) :
    ∀ call ∈ main w, call.1 ≠ [] ∧ call.2 ≠ none := by
  intro call hcall
  have hmain : main w =
      if getGitHubTagName w ≠ [] then buildByTag w (getGitHubTagName w)
      else buildSnapshots w := rfl
  rw [hmain] at hcall
  by_cases htag : getGitHubTagName w ≠ []
  · rw [if_pos htag] at hcall
    unfold buildByTag at hcall
    simp only [List.mem_map] at hcall
    obtain ⟨cfg, _, hcfg⟩ := hcall
    rw [← hcfg]
    refine ⟨htag, ?_⟩
    unfold build
    cases hv : getGitHubTagName w with
    | nil => exact absurd hv htag
    | cons c rest => simp
  · rw [if_neg htag] at hcall
    unfold buildSnapshots at hcall
    simp only [List.mem_map] at hcall
    obtain ⟨cfg, _, hcfg⟩ := hcall
    rw [← hcfg]
    have hv : ascii "snapshot-" ++ w.gitDescribe =
        115 :: (ascii "napshot-" ++ w.gitDescribe) := rfl
    refine ⟨by simp [hv], ?_⟩
    unfold build
    simp [hv]

/-- C16, the code at the failing input: on a snapshot build (no tag in `GITHUB_REF`)
the version passed to `build` is "snapshot-abc1234", its first byte is the letter s
(115) and not the letter v (118), and the version embedded in the flag is
"napshot-abc1234-deadbeef". -/
theorem main_snapshot_drops_letter_s :
    main localRun =
      [ (ascii "snapshot-abc1234",
          some
            { Args :=
                [ ascii "go", ascii "build", ascii "-trimpath", ascii "-o",
                  ascii "dist/horizon-snapshot-linux-arm/horizon",
                  ascii "github.com/stellar/stellar-horizon/." ],
              Env :=
                [ ascii "CGO_ENABLED=0",
                  ascii ("GOFLAGS=-ldflags=-X=github.com/stellar/go-stellar-sdk/" ++
                    "support/app.version=napshot-abc1234-deadbeef"),
                  ascii "GOOS=linux",
                  ascii "GOARCH=arm" ] }) ] ∧
    (ascii "snapshot-abc1234").head? = some 115 ∧
    ascii "s" = [115] ∧ ascii "v" = [118] := by
  refine ⟨?_, ?_, ?_, ?_⟩ <;> rfl

end build_release_artifacts

/-! ## Theorems about `streamLedgersToFile` -/

namespace integration

/-- The ledgers after the checkpoint and the ledgers up to it add up to all ledgers. -/
theorem benchmark_add_setup_length (cp : Nat) (ledgers : List xdr.LedgerCloseMeta) :
    (ledgers.filter (fun l => decide (cp < l.LedgerSequence))).length +
      (ledgers.filter (fun l => decide (l.LedgerSequence ≤ cp))).length =
    ledgers.length := by
  induction ledgers with
  | nil => rfl
  | cons l rest ih =>
    by_cases h : l.LedgerSequence ≤ cp
    · have h2 : ¬ cp < l.LedgerSequence := Nat.not_lt.mpr h
      simp only [List.filter_cons, h, h2, decide_True, decide_False, if_true,
        List.length_cons]
      simp only [Bool.false_eq_true, if_false]
      omega
    · have h2 : cp < l.LedgerSequence := Nat.lt_of_not_le h
      simp only [List.filter_cons, h, h2, decide_True, decide_False, if_true,
        List.length_cons]
      simp only [Bool.false_eq_true, if_false]
      omega

/-- The loop of `streamLedgersToFile` in closed form, when the stream ends with
`io.EOF` and every write succeeds. -/
theorem streamLoop_closed_form (files : StreamFiles) (cp : Nat)
    (hread : files.metadata.err = none)
    (hwrite : ∀ w l, files.marshalErr w l = none)
    (ledgers : List xdr.LedgerCloseMeta) (acc : StreamOutcome) :
    streamLoop files cp ledgers acc =
      { returned :=
          some (acc.count + (ledgers.filter (fun l => decide (cp < l.LedgerSequence))).length),
        count := acc.count + (ledgers.filter (fun l => decide (cp < l.LedgerSequence))).length,
        skipped :=
          acc.skipped + (ledgers.filter (fun l => decide (l.LedgerSequence ≤ cp))).length,
        written := acc.written ++ ledgers.filter (fun l => decide (cp < l.LedgerSequence)) } := by
  induction ledgers generalizing acc with
  | nil =>
    simp [streamLoop, hread]
  | cons l rest ih =>
    unfold streamLoop
    by_cases h : l.LedgerSequence ≤ cp
    · have h2 : ¬ cp < l.LedgerSequence := Nat.not_lt.mpr h
      rw [if_pos h, ih]
      simp [List.filter_cons, h, h2, Nat.add_assoc, Nat.add_comm 1]
    · have h2 : cp < l.LedgerSequence := Nat.lt_of_not_le h
      rw [if_neg h, hwrite, ih]
      simp [List.filter_cons, h, h2, Nat.add_assoc, Nat.add_comm 1]

/-- C15: `streamLedgersToFile` keeps only benchmark ledgers. When the files open, the
ledgers are read without error up to the end of the stream and the writes succeed,
the ledgers written are exactly those whose LedgerSequence is strictly greater than
preBenchmarkCheckpoint, in their input order; every ledger with a sequence less than or
equal to the checkpoint is skipped (counted in `skipped`, absent from the output); the
returned count is the number of ledgers written; and written + skipped = ledgers
read. -/
theorem streamLedgersToFile_keeps_benchmark_ledgers (files : StreamFiles)
    (preBenchmarkCheckpoint : Nat)
    (hopen : files.openErr = none) (hcreate : files.createErr = none)
    (hwriter : files.newWriterErr = none)
    (hread : files.metadata.err = none)
    (hwrite : ∀ w l, files.marshalErr w l = none) :
    (streamLedgersToFile files preBenchmarkCheckpoint).written =
      files.metadata.items.filter
        (fun l => decide (preBenchmarkCheckpoint < l.LedgerSequence)) ∧
    (∀ l ∈ files.metadata.items, l.LedgerSequence ≤ preBenchmarkCheckpoint →
      l ∉ (streamLedgersToFile files preBenchmarkCheckpoint).written) ∧
    (streamLedgersToFile files preBenchmarkCheckpoint).skipped =
      (files.metadata.items.filter
        (fun l => decide (l.LedgerSequence ≤ preBenchmarkCheckpoint))).length ∧
    (streamLedgersToFile files preBenchmarkCheckpoint).returned =
      some (streamLedgersToFile files preBenchmarkCheckpoint).written.length ∧
    (streamLedgersToFile files preBenchmarkCheckpoint).count =
      (streamLedgersToFile files preBenchmarkCheckpoint).written.length ∧
    (streamLedgersToFile files preBenchmarkCheckpoint).count +
        (streamLedgersToFile files preBenchmarkCheckpoint).skipped =
      files.metadata.items.length := by
  have hrun : streamLedgersToFile files preBenchmarkCheckpoint =
      streamLoop files preBenchmarkCheckpoint files.metadata.items ⟨none, 0, 0, []⟩ := by
    unfold streamLedgersToFile
    simp [hopen, hcreate, hwriter]
  rw [hrun, streamLoop_closed_form files preBenchmarkCheckpoint hread hwrite]
  refine ⟨by simp, ?_, by simp, by simp, by simp, ?_⟩
  · intro l _ hle hmem
    simp only [List.nil_append] at hmem
    have hlt := (List.mem_filter.mp hmem).2
    simp only [decide_eq_true_eq] at hlt
    omega
  · simp only [Nat.zero_add]
    exact benchmark_add_setup_length _ _

/-- Witness of C15: with the checkpoint at 7 and ledgers 6, 8, 7, 9 the ledgers written
are 8 and 9, two are skipped and the returned count is 2. -/
theorem streamLedgersToFile_keeps_benchmark_ledgers_witness :
    (streamLedgersToFile
        (healthyFiles [⟨6, 23, []⟩, ⟨8, 23, [1]⟩, ⟨7, 23, []⟩, ⟨9, 23, [2]⟩]) 7).written =
      [⟨8, 23, [1]⟩, ⟨9, 23, [2]⟩] ∧
    streamLedgersToFile
        (healthyFiles [⟨6, 23, []⟩, ⟨8, 23, [1]⟩, ⟨7, 23, []⟩, ⟨9, 23, [2]⟩]) 7 =
      ⟨some 2, 2, 2, [⟨8, 23, [1]⟩, ⟨9, 23, [2]⟩]⟩ :=
  ⟨(streamLedgersToFile_keeps_benchmark_ledgers
      (healthyFiles [⟨6, 23, []⟩, ⟨8, 23, [1]⟩, ⟨7, 23, []⟩, ⟨9, 23, [2]⟩]) 7
      rfl rfl rfl rfl (fun _ _ => rfl)).1,
   by decide⟩

end integration

/-! ## Theorems about `verifyFixturesCompleteness` -/

namespace integration

/-- When both SDK methods succeed, the key derivation of the source yields `keyOf`. -/
theorem entryKeyB64_eq_keyOf {ε κ : Type} (w : VerifyWorld ε κ)
    (hkey : ∀ e, (w.LedgerKey e).2 = none)
    (hb64 : ∀ k, (w.MarshalBinaryBase64 k).2 = none) (entry : ε) :
    entryKeyB64 w entry = some (keyOf w entry) := by
  unfold entryKeyB64 keyOf
  have h1 := hkey entry
  have h2 := hb64 (w.LedgerKey entry).1
  rcases hL : w.LedgerKey entry with ⟨key, err⟩
  rw [hL] at h1 h2
  simp only at h1 h2
  rcases hM : w.MarshalBinaryBase64 key with ⟨keyB64, err2⟩
  rw [hM] at h2
  simp only at h2
  subst h1 h2
  simp [hM]

/-- Membership of a key in the set after one change. -/
theorem applyChange_eq_true_iff {ε : Type} (key : ε → String) (known : KnownKeys)
    (c : Change ε) (k : String) :
    applyChange key known c k = true ↔
      (∃ post, c.Post = some post ∧ key post = k) ∨
      (known k = true ∧ ¬ Deletes key c k) := by
  unfold applyChange Deletes
  rcases c with ⟨pre, post⟩
  cases post with
  | some p =>
    by_cases hk : k = key p
    · subst hk
      simp
    · have hk2 : key p ≠ k := fun h => hk h.symm
      simp [Function.update_apply, hk, hk2]
  | none =>
    cases pre with
    | some q =>
      by_cases hk : k = key q
      · subst hk
        simp
      · have hk2 : key q ≠ k := fun h => hk h.symm
        simp [Function.update_apply, hk, hk2]
    | none => simp

/-- After no change at all, the known keys are those of the starting set. -/
theorem knownAfter_nil {ε : Type} (key : ε → String) (known : KnownKeys) (k : String) :
    KnownAfter key known ([] : List (Change ε)) k ↔ known k = true := by
  unfold KnownAfter
  constructor
  · rintro (⟨h, _⟩ | ⟨l1, d, l2, post, hsplit, _⟩)
    · exact h
    · exact absurd hsplit (by simp)
  · intro h
    exact Or.inl ⟨h, fun d hd => absurd hd (List.not_mem_nil d)⟩

/-- Taking the first change into the starting set does not change what is known. -/
theorem knownAfter_cons {ε : Type} (key : ε → String) (known : KnownKeys)
    (c : Change ε) (l : List (Change ε)) (k : String) :
    KnownAfter key (applyChange key known c) l k ↔ KnownAfter key known (c :: l) k := by
  unfold KnownAfter
  constructor
  · rintro (⟨h, hl⟩ | ⟨l1, d, l2, post, hsplit, hpost, hk, hl2⟩)
    · rcases (applyChange_eq_true_iff key known c k).mp h with ⟨post, hpost, hk⟩ | ⟨hkn, hdel⟩
      · exact Or.inr ⟨[], c, l, post, rfl, hpost, hk, hl⟩
      · refine Or.inl ⟨hkn, fun d hd => ?_⟩
        rcases List.mem_cons.mp hd with rfl | hd
        · exact hdel
        · exact hl d hd
    · exact Or.inr ⟨c :: l1, d, l2, post, by rw [hsplit]; rfl, hpost, hk, hl2⟩
  · rintro (⟨hkn, hall⟩ | ⟨l1, d, l2, post, hsplit, hpost, hk, hl2⟩)
    · refine Or.inl ⟨?_, fun d hd => hall d (List.mem_cons_of_mem c hd)⟩
      exact (applyChange_eq_true_iff key known c k).mpr
        (Or.inr ⟨hkn, hall c (List.mem_cons_self c l)⟩)
    · cases l1 with
      | nil =>
        simp only [List.nil_append, List.cons.injEq] at hsplit
        obtain ⟨hc, hl⟩ := hsplit
        subst hc hl
        exact Or.inl ⟨(applyChange_eq_true_iff key known c k).mpr (Or.inl ⟨post, hpost, hk⟩),
          hl2⟩
      | cons a l1 =>
        simp only [List.cons_append, List.cons.injEq] at hsplit
        obtain ⟨_, hl⟩ := hsplit
        exact Or.inr ⟨l1, d, l2, post, hl, hpost, hk, hl2⟩

/-- One change of the inner loop, when keys can be derived: the requirement on `Pre`
and the update of the set. -/
theorem verifyChange_eq {ε κ : Type} (w : VerifyWorld ε κ)
    (hkey : ∀ e, (w.LedgerKey e).2 = none)
    (hb64 : ∀ k, (w.MarshalBinaryBase64 k).2 = none)
    (c : Change ε) (known : KnownKeys) :
    verifyChange w c known =
      if (∀ pre, c.Pre = some pre → known (keyOf w pre) = true) then
        some (applyChange (keyOf w) known c)
      else none := by
  unfold verifyChange applyChange
  rcases c with ⟨pre, post⟩
  cases pre with
  | none =>
    cases post with
    | none => simp
    | some p => simp [entryKeyB64_eq_keyOf w hkey hb64]
  | some q =>
    cases post with
    | none =>
      by_cases hq : known (keyOf w q) = true
      · simp [entryKeyB64_eq_keyOf w hkey hb64, hq]
      · simp [entryKeyB64_eq_keyOf w hkey hb64, hq]
    | some p =>
      by_cases hq : known (keyOf w q) = true
      · simp [entryKeyB64_eq_keyOf w hkey hb64, hq]
      · simp [entryKeyB64_eq_keyOf w hkey hb64, hq]

end integration

namespace integration

/-- The inner loop passes exactly when every change with a non-nil `Pre` has a key
known after the changes before it. -/
theorem verifyChanges_isSome_iff {ε κ : Type} (w : VerifyWorld ε κ)
    (hkey : ∀ e, (w.LedgerKey e).2 = none)
    (hb64 : ∀ k, (w.MarshalBinaryBase64 k).2 = none)
    (cs : List (Change ε)) (known : KnownKeys) :
    (verifyChanges w cs known).isSome = true ↔
      ∀ (before : List (Change ε)) (c : Change ε) (after : List (Change ε)) (pre : ε),
        cs = before ++ c :: after → c.Pre = some pre →
          KnownAfter (keyOf w) known before (keyOf w pre) := by
  induction cs generalizing known with
  | nil =>
    constructor
    · intro _ before c after pre hsplit
      exact absurd hsplit (by simp)
    · intro _
      rfl
  | cons c0 rest ih =>
    unfold verifyChanges
    rw [verifyChange_eq w hkey hb64]
    by_cases hpre : ∀ pre, c0.Pre = some pre → known (keyOf w pre) = true
    · rw [if_pos hpre]
      simp only []
      rw [ih]
      constructor
      · intro h before c after pre hsplit hcpre
        cases before with
        | nil =>
          simp only [List.nil_append, List.cons.injEq] at hsplit
          obtain ⟨hc, _⟩ := hsplit
          subst hc
          exact (knownAfter_nil (keyOf w) known _).mpr (hpre pre hcpre)
        | cons b before1 =>
          simp only [List.cons_append, List.cons.injEq] at hsplit
          obtain ⟨hb, hrest⟩ := hsplit
          subst hb
          exact (knownAfter_cons (keyOf w) known c0 before1 _).mp
            (h before1 c after pre hrest hcpre)
      · intro h before c after pre hsplit hcpre
        exact (knownAfter_cons (keyOf w) known c0 before _).mpr
          (h (c0 :: before) c after pre (by rw [hsplit]; rfl) hcpre)
    · rw [if_neg hpre]
      constructor
      · intro h
        exact absurd h (by simp)
      · intro h
        exfalso
        apply hpre
        intro pre hcpre
        exact (knownAfter_nil (keyOf w) known _).mp (h [] c0 rest pre rfl hcpre)

/-- The inner loop on a non-empty list: the first change, then the rest. -/
theorem verifyChanges_cons {ε κ : Type} (w : VerifyWorld ε κ)
    (c : Change ε) (rest : List (Change ε)) (known : KnownKeys) :
    verifyChanges w (c :: rest) known =
      match verifyChange w c known with
      | none => none
      | some known1 => verifyChanges w rest known1 := rfl

/-- The inner loop over two lists of changes in a row. -/
theorem verifyChanges_append {ε κ : Type} (w : VerifyWorld ε κ)
    (a b : List (Change ε)) (known : KnownKeys) :
    verifyChanges w (a ++ b) known =
      match verifyChanges w a known with
      | none => none
      | some known1 => verifyChanges w b known1 := by
  induction a generalizing known with
  | nil => rfl
  | cons c rest ih =>
    rw [List.cons_append, verifyChanges_cons, verifyChanges_cons]
    cases verifyChange w c known with
    | none => rfl
    | some known1 => exact ih known1

/-- Without failures around it, the outer loop is the inner loop over the changes of
all ledgers in a row. -/
theorem verifyLedgers_eq_verifyChanges {ε κ : Type} (w : VerifyWorld ε κ)
    (networkPassphrase : String) (hend : w.metadata.err = none)
    (ledgers : List xdr.LedgerCloseMeta)
    (hledgers : ∀ ledger ∈ ledgers,
      ledger.ProtocolVersion = w.MaxSupportedProtocolVersion ∧
      (w.NewLedgerChangeReaderFromLedgerCloseMeta networkPassphrase ledger).2 = none ∧
      (w.NewLedgerChangeReaderFromLedgerCloseMeta networkPassphrase ledger).1.reads.err = none ∧
      (w.NewLedgerChangeReaderFromLedgerCloseMeta networkPassphrase ledger).1.closeErr = none)
    (known : KnownKeys) :
    verifyLedgers w networkPassphrase ledgers known =
      verifyChanges w
        (ledgers.flatMap (fun ledger =>
          (w.NewLedgerChangeReaderFromLedgerCloseMeta networkPassphrase ledger).1.reads.items))
        known := by
  induction ledgers generalizing known with
  | nil =>
    simp [verifyLedgers, verifyChanges, hend]
  | cons ledger rest ih =>
    obtain ⟨hv, herr, hread, hclose⟩ := hledgers ledger (List.mem_cons_self ledger rest)
    have hrest := fun l hl => hledgers l (List.mem_cons_of_mem ledger hl)
    unfold verifyLedgers
    rw [List.flatMap_cons, verifyChanges_append]
    rcases hN : w.NewLedgerChangeReaderFromLedgerCloseMeta networkPassphrase ledger with
      ⟨changeReader, err⟩
    rw [hN] at herr hread hclose
    simp only at herr hread hclose
    simp only [hv, herr, hread, hclose, ne_eq, not_true_eq_false, if_false,
      Option.isSome_none, Bool.false_eq_true]
    cases verifyChanges w changeReader.reads.items known with
    | none => rfl
    | some known1 => exact ih hrest known1

/-- Step 1 succeeds when keys can be derived, and the set it builds holds the starting
keys and the keys of the non-nil `Post` states. -/
theorem loadFixtureKeys_spec {ε κ : Type} (w : VerifyWorld ε κ)
    (hkey : ∀ e, (w.LedgerKey e).2 = none)
    (hb64 : ∀ k, (w.MarshalBinaryBase64 k).2 = none)
    (items : List (Change ε)) (known : KnownKeys) :
    ∃ known1, loadFixtureKeys w items known = some known1 ∧
      ∀ k, known1 k = true ↔
        (known k = true ∨ ∃ f ∈ items.filterMap (fun c => c.Post), keyOf w f = k) := by
  induction items generalizing known with
  | nil =>
    exact ⟨known, rfl, fun k => by simp⟩
  | cons c rest ih =>
    unfold loadFixtureKeys
    cases hpost : c.Post with
    | none =>
      obtain ⟨known1, hload, hk⟩ := ih known
      refine ⟨known1, hload, fun k => ?_⟩
      rw [hk k, List.filterMap_cons_none hpost]
    | some post =>
      simp only [entryKeyB64_eq_keyOf w hkey hb64]
      obtain ⟨known1, hload, hk⟩ := ih (Function.update known (keyOf w post) true)
      refine ⟨known1, hload, fun k => ?_⟩
      rw [hk k, List.filterMap_cons_some hpost]
      by_cases hkk : k = keyOf w post
      · subst hkk
        simp
      · have hkk2 : keyOf w post ≠ k := fun h => hkk h.symm
        simp [Function.update_apply, hkk, hkk2]

end integration

namespace integration

/-- A plain world has no failure outside the examined property. -/
theorem untroubled_plainWorld (fixtures : List (Change String))
    (ledgers : List (List (Change String))) (networkPassphrase : String) :
    Untroubled (plainWorld fixtures ledgers) networkPassphrase := by
  refine ⟨fun _ => rfl, fun _ => rfl, rfl, rfl, rfl, rfl, rfl, rfl, ?_⟩
  intro ledger hmem
  simp only [plainWorld, List.mem_map] at hmem
  obtain ⟨i, _, hi⟩ := hmem
  subst hi
  exact ⟨rfl, rfl, rfl, rfl⟩

/-- C12, as amended: when nothing fails around it (reads, closes, key derivation,
protocol version), the check of `verifyFixturesCompleteness` passes exactly when, for
each change with a non-nil Pre, the key of Pre is known after the changes before it:
it is the key of an initial fixture entry and no earlier change deleted it, or it is
the key of the Post state of an earlier change and no change between the two deleted
it (a change deletes the key of its Pre when its Post is nil). -/
theorem verifyFixturesCompleteness_iff_preKeysKnown {ε κ : Type} (w : VerifyWorld ε κ)
    (networkPassphrase : String) (h : Untroubled w networkPassphrase) :
    verifyFixturesCompleteness w networkPassphrase = true ↔
      PreKeysKnown (keyOf w) (fixtureEntries w) (allChanges w networkPassphrase) := by
  obtain ⟨hkey, hb64, hconnect, hnew, hread, hclose, hopen, hend, hledgers⟩ := h
  obtain ⟨known1, hload, hk⟩ :=
    loadFixtureKeys_spec w hkey hb64 w.checkpointReader.reads.items (fun _ => false)
  have hfun : known1 = fun k => decide (∃ f ∈ fixtureEntries w, keyOf w f = k) := by
    funext k
    have hiff := hk k
    simp only [Bool.false_eq_true, false_or] at hiff
    by_cases hex : ∃ f ∈ fixtureEntries w, keyOf w f = k
    · rw [decide_eq_true hex]
      exact hiff.mpr hex
    · rw [decide_eq_false hex]
      cases hval : known1 k with
      | false => rfl
      | true => exact absurd (hiff.mp hval) hex
  unfold verifyFixturesCompleteness openCheckpointReader
  simp only [hconnect, hnew, hread, hclose, hopen, Option.isSome_none, Bool.false_eq_true,
    if_false, hload]
  rw [verifyLedgers_eq_verifyChanges w networkPassphrase hend w.metadata.items hledgers,
    verifyChanges_isSome_iff w hkey hb64, hfun]
  rfl

/-- Witness of the amended C12: the fixture A is deleted in the first ledger and created
again in the second before it is updated, and the check passes. -/
theorem verifyFixturesCompleteness_iff_preKeysKnown_witness :
    Untroubled
      (plainWorld [⟨none, some "A"⟩]
        [[⟨some "A", none⟩], [⟨none, some "A"⟩, ⟨some "A", some "B"⟩]]) "net" ∧
    verifyFixturesCompleteness
      (plainWorld [⟨none, some "A"⟩]
        [[⟨some "A", none⟩], [⟨none, some "A"⟩, ⟨some "A", some "B"⟩]]) "net" = true ∧
    PreKeysKnown
      (keyOf (plainWorld [⟨none, some "A"⟩]
        [[⟨some "A", none⟩], [⟨none, some "A"⟩, ⟨some "A", some "B"⟩]]))
      (fixtureEntries (plainWorld [⟨none, some "A"⟩]
        [[⟨some "A", none⟩], [⟨none, some "A"⟩, ⟨some "A", some "B"⟩]]))
      (allChanges (plainWorld [⟨none, some "A"⟩]
        [[⟨some "A", none⟩], [⟨none, some "A"⟩, ⟨some "A", some "B"⟩]]) "net") :=
  ⟨untroubled_plainWorld _ _ _, by decide,
   (verifyFixturesCompleteness_iff_preKeysKnown
      (plainWorld [⟨none, some "A"⟩]
        [[⟨some "A", none⟩], [⟨none, some "A"⟩, ⟨some "A", some "B"⟩]]) "net"
      (untroubled_plainWorld _ _ _)).mp (by decide)⟩

/-- C12, as stated, fails: with the fixture A, a first change that deletes A (Pre A, nil
Post) and a second change that updates A (Pre A, Post A), nothing fails around the
check and every Pre has the key of an initial fixture entry, yet the check does not
pass, because the deletion removed A from the known keys. -/
theorem verifyFixturesCompleteness_claimed_condition_fails :
    Untroubled
      (plainWorld [⟨none, some "A"⟩] [[⟨some "A", none⟩, ⟨some "A", some "A"⟩]]) "net" ∧
    PreKeysFromFixturesOrPriorPosts
      (keyOf (plainWorld [⟨none, some "A"⟩] [[⟨some "A", none⟩, ⟨some "A", some "A"⟩]]))
      (fixtureEntries
        (plainWorld [⟨none, some "A"⟩] [[⟨some "A", none⟩, ⟨some "A", some "A"⟩]]))
      (allChanges
        (plainWorld [⟨none, some "A"⟩] [[⟨some "A", none⟩, ⟨some "A", some "A"⟩]]) "net") ∧
    verifyFixturesCompleteness
      (plainWorld [⟨none, some "A"⟩] [[⟨some "A", none⟩, ⟨some "A", some "A"⟩]]) "net" =
        false ∧
    ¬ (verifyFixturesCompleteness
        (plainWorld [⟨none, some "A"⟩] [[⟨some "A", none⟩, ⟨some "A", some "A"⟩]]) "net" =
          true ↔
        PreKeysFromFixturesOrPriorPosts
          (keyOf (plainWorld [⟨none, some "A"⟩] [[⟨some "A", none⟩, ⟨some "A", some "A"⟩]]))
          (fixtureEntries
            (plainWorld [⟨none, some "A"⟩] [[⟨some "A", none⟩, ⟨some "A", some "A"⟩]]))
          (allChanges
            (plainWorld [⟨none, some "A"⟩] [[⟨some "A", none⟩, ⟨some "A", some "A"⟩]])
            "net")) := by
  have hall : allChanges
      (plainWorld [⟨none, some "A"⟩] [[⟨some "A", none⟩, ⟨some "A", some "A"⟩]]) "net" =
      [⟨some "A", none⟩, ⟨some "A", some "A"⟩] := by decide
  have hclaimed : PreKeysFromFixturesOrPriorPosts
      (keyOf (plainWorld [⟨none, some "A"⟩] [[⟨some "A", none⟩, ⟨some "A", some "A"⟩]]))
      (fixtureEntries
        (plainWorld [⟨none, some "A"⟩] [[⟨some "A", none⟩, ⟨some "A", some "A"⟩]]))
      (allChanges
        (plainWorld [⟨none, some "A"⟩] [[⟨some "A", none⟩, ⟨some "A", some "A"⟩]]) "net") := by
    intro before c after pre hsplit hpre
    have hc : c ∈ ([⟨some "A", none⟩, ⟨some "A", some "A"⟩] : List (Change String)) := by
      rw [← hall, hsplit]
      simp
    have hA : pre = "A" := by
      simp only [List.mem_cons, List.mem_singleton, List.not_mem_nil, or_false] at hc
      rcases hc with hc | hc
      · rw [hc] at hpre
        exact (Option.some.inj hpre).symm
      · rw [hc] at hpre
        exact (Option.some.inj hpre).symm
    subst hA
    exact Or.inl ⟨"A", by decide, rfl⟩
  have hfails : verifyFixturesCompleteness
      (plainWorld [⟨none, some "A"⟩] [[⟨some "A", none⟩, ⟨some "A", some "A"⟩]]) "net" =
        false := by decide
  refine ⟨untroubled_plainWorld _ _ _, hclaimed, hfails, fun hiff => ?_⟩
  have hpass := hiff.mpr hclaimed
  rw [hfails] at hpass
  exact absurd hpass (by decide)

end integration

namespace integration

/-- The condition that the code checks implies the condition as the specification words
it: a known key is the key of an initial fixture entry or of an earlier `Post`. -/
theorem preKeysKnown_imp_fromFixturesOrPriorPosts {ε : Type} (key : ε → String)
    (fixtures : List ε) (changes : List (Change ε))
    (h : PreKeysKnown key fixtures changes) :
    PreKeysFromFixturesOrPriorPosts key fixtures changes := by
  intro before c after pre hsplit hpre
  rcases h before c after pre hsplit hpre with ⟨hk, _⟩ | ⟨l1, d, l2, post, hb, hpost, hk, _⟩
  · exact Or.inl (of_decide_eq_true hk)
  · refine Or.inr ⟨d, ?_, post, hpost, hk⟩
    rw [hb]
    simp

end integration
